import Mathlib

/-!
A verification development for the SwarmSync deep-research orchestration
engine.  The engine's data model and operations are shallowly embedded:
strings are lists of characters, model/fetcher calls become oracle
parameters, and the LangGraph workflow becomes an explicit step function
over an explicit state record.  Scores and confidences are exact rationals.
-/

namespace SwarmSync

/-! ## Embedded strings and JavaScript primitives -/

/-- Program strings are embedded as lists of characters: JavaScript `slice`
becomes `List.take`/`List.drop`, `length` becomes `List.length`, and
`includes` becomes substring search. -/
abbrev Str := List Char

/-- Coerce a Lean string literal to the embedded string type. -/
def str (s : String) : Str := s.data

/-- JavaScript `String.prototype.toLowerCase` (ASCII behaviour). -/
def toLower (s : Str) : Str := s.map Char.toLower

/-- JavaScript `a.includes(b)`: substring containment, checked at every
offset (the empty string is contained in every string). -/
def includesStr (s sub : Str) : Bool :=
  (List.range (s.length + 1)).any (fun i => sub.isPrefixOf (s.drop i))

/-- JavaScript `Math.min` on exact rationals. -/
def qMin (a b : ℚ) : ℚ := if a ≤ b then a else b

/-- JavaScript `Math.max` on exact rationals. -/
def qMax (a b : ℚ) : ℚ := if a ≤ b then b else a

/-- JavaScript `Math.min` on integers (used by the budget arithmetic). -/
def zMin (a b : ℤ) : ℤ := if a ≤ b then a else b

/-- JavaScript `Math.max` on integers (used by the budget arithmetic). -/
def zMax (a b : ℤ) : ℤ := if a ≤ b then b else a

/-- JavaScript `String.prototype.trim`. -/
def trimStr (s : Str) : Str :=
  ((s.dropWhile Char.isWhitespace).reverse.dropWhile Char.isWhitespace).reverse

/-- `[...new Set(xs)]`: deduplicate keeping the first occurrence of each
element, preserving order. -/
def dedupFirst (l : List Str) : List Str :=
  l.foldl (fun acc x => if x ∈ acc then acc else acc ++ [x]) []

/-- JavaScript truthiness for an optional string: `undefined` and the empty
string are falsy. -/
def truthyStr : Option Str → Bool
  | none => false
  | some s => !s.isEmpty

/-- `a || b` for possibly-absent strings, returning a plain string:
the first truthy operand, or the empty string (`r.markdown || r.content
|| ''`). -/
def jsOrStr (a b : Option Str) : Str :=
  match a with
  | some x => if x.isEmpty then (match b with | some y => y | none => []) else x
  | none => (match b with | some y => y | none => [])

/-- Render a natural number the way JavaScript template literals do. -/
def natToStr (n : ℕ) : Str := (toString n).data

/-! ## Configuration (config.ts, `SEARCH_CONFIG`) -/

/-- The engine's tuning knobs, mirroring the `SEARCH_CONFIG` object. -/
structure SearchConfig where
  MAX_SEARCH_QUERIES : ℕ
  MAX_SOURCES_PER_SEARCH : ℕ
  MAX_SOURCES_TO_SCRAPE : ℕ
  MIN_CONTENT_LENGTH : ℕ
  SUMMARY_CHAR_LIMIT : ℕ
  CONTEXT_PREVIEW_LENGTH : ℕ
  ANSWER_CHECK_PREVIEW : ℕ
  MAX_SOURCES_TO_CHECK : ℕ
  MAX_RETRIES : ℕ
  MAX_SEARCH_ATTEMPTS : ℕ
  MIN_ANSWER_CONFIDENCE : ℚ
  EARLY_TERMINATION_CONFIDENCE : ℚ
  SCRAPE_TIMEOUT : ℕ
  SOURCE_ANIMATION_DELAY : ℕ
  PARALLEL_SUMMARY_GENERATION : Bool
  SPEED_MODE : Bool
  FAST_SYNTHESIS : Bool
deriving DecidableEq, Repr

/-- The concrete configuration shipped in `config.ts`. -/
def SEARCH_CONFIG : SearchConfig where
  MAX_SEARCH_QUERIES := 3
  MAX_SOURCES_PER_SEARCH := 8
  MAX_SOURCES_TO_SCRAPE := 10
  MIN_CONTENT_LENGTH := 100
  SUMMARY_CHAR_LIMIT := 80
  CONTEXT_PREVIEW_LENGTH := 300
  ANSWER_CHECK_PREVIEW := 1500
  MAX_SOURCES_TO_CHECK := 15
  MAX_RETRIES := 1
  MAX_SEARCH_ATTEMPTS := 2
  MIN_ANSWER_CONFIDENCE := 1/5
  EARLY_TERMINATION_CONFIDENCE := 3/5
  SCRAPE_TIMEOUT := 8000
  SOURCE_ANIMATION_DELAY := 25
  PARALLEL_SUMMARY_GENERATION := true
  SPEED_MODE := true
  FAST_SYNTHESIS := true

/-! ## Data model (langgraph-search-engine.ts) -/

/-- `ErrorType = 'search' | 'scrape' | 'llm' | 'unknown'`. -/
inductive ErrorType
  | search
  | scrape
  | llm
  | unknown
deriving DecidableEq, Repr

/-- `SearchPhase` — the seven declared phases, plus the runtime-only value
`'scrape'` that the search node stores via `'scrape' as SearchPhase`. -/
inductive SearchPhase
  | understanding
  | planning
  | searching
  | analyzing
  | synthesizing
  | complete
  | error
  | scrape
deriving DecidableEq, Repr

/-- `Source` — a discovered web document candidate. -/
structure Source where
  url : Str
  title : Str
  content : Option Str
  quality : Option ℚ
  summary : Option Str
deriving DecidableEq, Repr

/-- `SearchResult` — one hit returned by the Content Fetcher. -/
structure SearchResult where
  url : Str
  title : Str
  content : Option Str
  markdown : Option Str
deriving DecidableEq, Repr

/-- A sub-query record (element of `SearchState.subQueries`). -/
structure SubQuery where
  question : Str
  searchQuery : Str
  answered : Bool
  answer : Option Str
  confidence : ℚ
  sources : List Str
deriving DecidableEq, Repr

/-- The per-source animation stage of a `source-processing` event. -/
inductive SourceStage
  | browsing
  | extracting
  | analyzing
deriving DecidableEq, Repr

/-- `SearchEvent` — the tagged union of events streamed to the caller. -/
inductive SearchEvent
  | phaseUpdate (phase : SearchPhase) (message : Str)
  | thinking (message : Str)
  | searching (query : Str) (index : ℕ) (total : ℕ)
  | found (sources : List Source) (query : Str)
  | scraping (url : Str) (index : ℕ) (total : ℕ) (query : Str)
  | contentChunk (chunk : Str)
  | finalResult (content : Str) (sources : List Source)
      (followUpQuestions : Option (List Str))
  | errorEvent (error : Str) (errorType : Option ErrorType)
  | sourceProcessing (url : Str) (title : Str) (stage : SourceStage)
  | sourceComplete (url : Str) (summary : Str)
deriving DecidableEq, Repr

/-! ## `scoreContent` (langgraph-search-engine.ts, lines 1409-1419)

```
private scoreContent(content: string, query: string): number {
  const queryWords = query.toLowerCase().split(' ');
  const contentLower = content.toLowerCase();
  let score = 0;
  for (const word of queryWords) {
    if (contentLower.includes(word)) score += 0.2;
  }
  return Math.min(score, 1);
}
```
-/

/-- The engine's deterministic content scorer, embedded over exact
rationals.  `split(' ')` splits on the single space character (producing
empty segments for consecutive spaces), and every token of the split —
duplicates included — contributes 0.2 when it occurs as a substring of
the lowercased content. -/
def scoreContent (content query : Str) : ℚ :=
  let queryWords := List.splitOn ' ' (toLower query)
  let contentLower := toLower content
  let score : ℚ := queryWords.foldl
    (fun sc word => if includesStr contentLower word then sc + 1/5 else sc) 0
  qMin score 1

/-- Split a string on runs of whitespace, discarding empty segments. -/
def splitWhitespace (s : Str) : List Str :=
  (List.splitOnP Char.isWhitespace s).filter (fun w => ¬ w.isEmpty)

/-- The content scorer as the specification's words describe it: 0.2 per
*distinct* whitespace-separated query token found as a substring of the
lowercased content, capped at 1.0.  Kept separate from `scoreContent`
(which follows the source) so the two can be compared. -/
def scoreContentSpecDistinct (content query : Str) : ℚ :=
  let tokens := dedupFirst (splitWhitespace (toLower query))
  qMin ((tokens.countP (fun w => includesStr (toLower content) w) : ℚ) / 5) 1

/-! ## The `sources` reducer (state annotation, lines 111-122)

```
reducer: (existing, update) => {
  if (!update) return existing;
  const sourceMap = new Map<string, Source>();
  [...existing, ...update].forEach(source => { sourceMap.set(source.url, source); });
  return Array.from(sourceMap.values());
}
```
A JavaScript `Map` keeps the first-insertion position of each key and
`set` overwrites the stored value, so the fold below inserts at the end on
a fresh key and replaces in place on an existing key. -/

/-- One `sourceMap.set(source.url, source)` step. -/
def insertByUrl (m : List Source) (s : Source) : List Source :=
  if m.any (fun t => decide (t.url = s.url)) then
    m.map (fun t => if t.url = s.url then s else t)
  else m ++ [s]

/-- `Array.from(map.values())` after inserting every record in order. -/
def dedupByUrl (l : List Source) : List Source := l.foldl insertByUrl []

/-- The reducer of the `sources` channel: `undefined` keeps the existing
list, otherwise existing and update records are merged by URL. -/
def sourcesReducer (existing : List Source) (update : Option (List Source)) :
    List Source :=
  match update with
  | none => existing
  | some u => dedupByUrl (existing ++ u)

/-- Lookup of the merged entry for a URL. -/
def findByUrl (m : List Source) (u : Str) : Option Source :=
  m.find? (fun t => decide (t.url = u))

/-- The last contributing record carrying a given URL. -/
def lastWithUrl (l : List Source) (u : Str) : Option Source :=
  (l.filter (fun t => decide (t.url = u))).getLast?

/-- A maximally-informative contributing record, for the counterexample. -/
def richSourceC1 : Source where
  url := ['u']
  title := ['t']
  content := some (str "long content")
  quality := none
  summary := some (str "a summary of the page")

/-- A record for the same URL with empty content and no summary. -/
def poorSourceC1 : Source where
  url := ['u']
  title := ['t', '2']
  content := some []
  quality := none
  summary := none

/-! ## `checkAnswersInSources` (lines 1188-1284)

The single model call and its JSON parse are modelled by the `response`
oracle argument: `none` is a model failure or a response that does not
parse as a JSON array (the `catch` path), `some results` is the parsed
array.  The returned boolean records whether the Language Model Gateway
was invoked at all. -/

/-- The parsed shape of one element of the answer-check JSON array. -/
structure CheckResult where
  question : Str
  answered : Bool
  confidence : ℚ
  answer : Option Str
  sources : Option (List Str)
deriving DecidableEq, Repr

/-- The per-sub-query update: `results.find(r => r.question === sq.question)`
followed by the strict-improvement guard `result.confidence > sq.confidence`. -/
def updateSubQueryFromResults (cfg : SearchConfig) (results : List CheckResult)
    (sq : SubQuery) : SubQuery :=
  match results.find? (fun r => decide (r.question = sq.question)) with
  | some result =>
    if sq.confidence < result.confidence then
      { sq with
        answered := decide (cfg.MIN_ANSWER_CONFIDENCE ≤ result.confidence)
        answer := result.answer
        confidence := result.confidence
        sources := dedupFirst (sq.sources ++ result.sources.getD []) }
    else sq
  | none => sq

/-- `checkAnswersInSources`: returns the updated sub-queries and whether a
Language Model Gateway call was made. -/
def checkAnswersInSources (cfg : SearchConfig) (subQueries : List SubQuery)
    (sources : List Source) (response : Option (List CheckResult)) :
    List SubQuery × Bool :=
  if sources.length = 0 then (subQueries, false)
  else
    match response with
    | some results => (subQueries.map (updateSubQueryFromResults cfg results), true)
    | none => (subQueries, true)

/-! ## `generateFollowUpQuestions` (lines 1540-1602)

The model call is the `response` oracle argument; the whole body is
wrapped in `try/catch` with `catch → []`. -/

/-- The post-processing of the raw model response:
`split('\n').map(trim).filter(len in (0,75)).slice(0,3)` and the final
`questions.length > 0 ? questions : []`. -/
def processFollowUpLines (response : Str) : List Str :=
  let questions := (((List.splitOn '\n' response).map trimStr).filter
      (fun q => decide (0 < q.length ∧ q.length < 75))).take 3
  if 0 < questions.length then questions else []

/-- `generateFollowUpQuestions`: a model failure (`Except.error`) degrades
to the empty list via the surrounding `catch`. -/
def generateFollowUpQuestions (response : Except Unit Str) : List Str :=
  match response with
  | .error _ => []
  | .ok r => processFollowUpLines r

/-! ## ContextProcessor (context-processor.ts)

The `generateText` model call inside `summarizeSource` is the `oracle`
argument, indexed by an invocation counter threaded through the
computation; each function also returns the list of source URLs to which
a model call is attributable. -/

/-- `private readonly MAX_TOTAL_CHARS = 100000`. -/
def MAX_TOTAL_CHARS : ℕ := 100000

/-- `private readonly MIN_CHARS_PER_SOURCE = 2000`. -/
def MIN_CHARS_PER_SOURCE : ℕ := 2000

/-- `private readonly MAX_CHARS_PER_SOURCE = 15000`. -/
def MAX_CHARS_PER_SOURCE : ℕ := 15000

/-- `private readonly CONTEXT_WINDOW_SIZE = 500`. -/
def CONTEXT_WINDOW_SIZE : ℕ := 500

/-- `ProcessedSource extends Source` with relevance and extraction data. -/
structure ProcessedSource extends Source where
  relevanceScore : ℚ
  extractedSections : List Str
  keywords : List Str
  summarized : Option Bool
deriving DecidableEq, Repr

/-- The stop-word set of `extractKeywords`. -/
def stopWords : List Str :=
  [str "the", str "a", str "an", str "and", str "or", str "but", str "in",
   str "on", str "at", str "to", str "for", str "of", str "with", str "by",
   str "from", str "as", str "is", str "was", str "are", str "were",
   str "been", str "be", str "have", str "has", str "had", str "do",
   str "does", str "did", str "will", str "would", str "could",
   str "should", str "may", str "might", str "must", str "can",
   str "what", str "when", str "where", str "how", str "why", str "who"]

/-- JavaScript `\w`: ASCII letters, digits and underscore. -/
def isWordChar (c : Char) : Bool := c.isAlphanum || c = '_'

/-- Scanner for `text.match(/"([^"]+)"/g)` with the quotes stripped from
each match: collects the non-empty segments between balanced double
quotes, left to right.  The fuel argument bounds the recursion by the
string length; every step consumes at least one character. -/
def quotedPhrasesAux : ℕ → Str → List Str
  | 0, _ => []
  | _ + 1, [] => []
  | fuel + 1, c :: rest =>
    if c = '"' then
      let inner := rest.takeWhile (fun d => d ≠ '"')
      let rest2 := rest.drop inner.length
      match rest2 with
      | '"' :: rest3 =>
        if inner.isEmpty then quotedPhrasesAux fuel rest
        else inner :: quotedPhrasesAux fuel rest3
      | _ => []
    else quotedPhrasesAux fuel rest

/-- The quoted-phrase extraction entry point. -/
def quotedPhrases (s : Str) : List Str := quotedPhrasesAux (s.length + 1) s

/-- `ContextProcessor.extractKeywords`: words of length > 2 that are not
stop words, plus quoted phrases, deduplicated preserving order. -/
def extractKeywords (query : Str) (searchQueries : List Str) : List Str :=
  let allText := toLower (List.intercalate (str " ") (query :: searchQueries))
  let words := (List.splitOnP (fun c => !isWordChar c) allText).filter
    (fun word => decide (2 < word.length) && !stopWords.contains word)
  dedupFirst (words ++ quotedPhrases allText)

/-- All start positions of a keyword occurrence in the content, mirroring
the `indexOf` loop of `processSource` (keywords are never empty). -/
def occurrencePositions (content keyword : Str) : List ℕ :=
  (List.range content.length).filter (fun i => keyword.isPrefixOf (content.drop i))

/-- `ContextProcessor.calculateRelevanceScore`: coverage weighted 0.7 plus
normalized keyword density weighted 0.3.  The caller guarantees a
non-empty content, so the rational division by `contentLength` is never
division by zero. -/
def calculateRelevanceScore (uniqueKeywordsFound totalKeywordMatches
    totalKeywords contentLength : ℕ) : ℚ :=
  let coverage : ℚ :=
    if 0 < totalKeywords then (uniqueKeywordsFound : ℚ) / totalKeywords else 0
  let density : ℚ := ((totalKeywordMatches : ℚ) / contentLength) * 1000
  let normalizedDensity := qMin (density / 10) 1
  coverage * (7/10) + normalizedDensity * (3/10)

/-- `content.lastIndexOf(c, fromIdx)` as an optional index. -/
def lastIndexOfFrom (content : Str) (c : Char) (fromIdx : ℕ) : Option ℕ :=
  ((List.range content.length).filter
    (fun i => decide (i ≤ fromIdx) && decide (content.getD i ' ' = c))).getLast?

/-- `content.indexOf(c, fromIdx)` as an optional index. -/
def indexOfFrom (content : Str) (c : Char) (fromIdx : ℕ) : Option ℕ :=
  ((List.range content.length).filter
    (fun i => decide (fromIdx ≤ i) && decide (content.getD i ' ' = c))).head?

/-- The window-merging pass of `extractRelevantSections`: ±500-character
windows around sorted keyword positions, overlapping windows merged by
extending the previous window's end. -/
def mergeWindows (positions : List ℕ) (contentLength : ℕ) : List (ℕ × ℕ) :=
  positions.foldl (fun windows position =>
    let wstart := position - CONTEXT_WINDOW_SIZE
    let wstop := Nat.min contentLength (position + CONTEXT_WINDOW_SIZE)
    match windows.getLast? with
    | some (ps, pe) =>
      if wstart ≤ pe then windows.dropLast ++ [(ps, wstop)]
      else windows ++ [(wstart, wstop)]
    | none => [(wstart, wstop)]) []

/-- `ContextProcessor.extractRelevantSections`: merged keyword windows
snapped to sentence/line boundaries; with no keyword position the first
`MIN_CHARS_PER_SOURCE` characters are returned. -/
def extractRelevantSections (content : Str) (positions : List ℕ) : List Str :=
  if positions.isEmpty then [content.take MIN_CHARS_PER_SOURCE]
  else
    let sorted := positions.mergeSort (fun a b => decide (a ≤ b))
    let windows := mergeWindows sorted content.length
    windows.foldl (fun sections w =>
      let prevPeriod := lastIndexOfFrom content '.' w.1
      let prevNewline := lastIndexOfFrom content '\n' w.1
      let sStart := Nat.max (Nat.max (prevPeriod.elim 0 (· + 1))
        (prevNewline.elim 0 (· + 1))) 0
      let nextPeriod := indexOfFrom content '.' w.2
      let nextNewline := indexOfFrom content '\n' w.2
      let sEnd := if nextPeriod.isSome || nextNewline.isSome then
          Nat.min (nextPeriod.elim content.length (· + 1))
            (nextNewline.elim content.length id)
        else w.2
      let sect := trimStr ((content.take sEnd).drop sStart)
      if sect.isEmpty then sections else sections ++ [sect]) []

/-- `ContextProcessor.processSource`: the deterministic keyword-window
fallback used when the summarizing model call fails.  Makes no model
call. -/
def processSource (source : Source) (keywords : List Str) : ProcessedSource :=
  if !truthyStr source.content then
    { toSource := source, relevanceScore := 0, extractedSections := [],
      keywords := [], summarized := none }
  else
    let raw := source.content.getD []
    let content := toLower raw
    let keywordPositions := keywords.flatMap
      (fun k => (occurrencePositions content k).map (fun p => (k, p)))
    let foundKeywords := dedupFirst
      (keywords.filter (fun k => !(occurrencePositions content k).isEmpty))
    { toSource := source,
      relevanceScore := calculateRelevanceScore foundKeywords.length
        keywordPositions.length keywords.length raw.length,
      extractedSections := extractRelevantSections raw
        (keywordPositions.map Prod.snd),
      keywords := foundKeywords,
      summarized := none }

/-- `ContextProcessor.calculateSummaryLength`. -/
def calculateSummaryLength (sourceCount : ℕ) : ℕ :=
  if sourceCount ≤ 5 then 4000
  else if sourceCount ≤ 10 then 3000
  else if sourceCount ≤ 20 then 2000
  else if sourceCount ≤ 30 then 1500
  else 1000

/-- The low-relevance marker phrases of `calculateRelevanceFromSummary`. -/
def lowRelevancePhrases : List Str :=
  [str "not directly related", str "no specific information",
   str "doesn\x27t mention", str "no relevant content", str "unrelated to"]

/-- The high-relevance marker phrases of `calculateRelevanceFromSummary`. -/
def highRelevanceIndicators : List Str :=
  [str "specifically mentions", str "directly addresses",
   str "provides detailed", str "explains how", str "data shows",
   str "research indicates"]

/-- `ContextProcessor.calculateRelevanceFromSummary`. -/
def calculateRelevanceFromSummary (summary query : Str)
    (searchQueries : List Str) : ℚ :=
  let summaryLower := toLower summary
  if lowRelevancePhrases.any (fun p => includesStr summaryLower p) then 1/10
  else
    let base := qMin ((summary.length : ℚ) / 2000) 1
    let score := if highRelevanceIndicators.any
        (fun p => includesStr summaryLower p) then qMin (base + 3/10) 1 else base
    let keywords := extractKeywords query searchQueries
    let keywordMatches := (keywords.filter
      (fun k => includesStr summaryLower (toLower k))).length
    let keywordScore : ℚ := if 0 < keywords.length
      then (keywordMatches : ℚ) / keywords.length else 1/2
    score * (6/10) + keywordScore * (4/10)

/-- `ContextProcessor.summarizeSource`: returns the processed source, the
next oracle counter, and the URLs to which a model call is attributable.
A source whose summary is longer than 20 characters short-circuits
without any model call; a source without usable content scores zero
without any model call; otherwise one model call is made, falling back
to `processSource` when it fails. -/
def summarizeSource (oracle : ℕ → Except Unit Str) (c : ℕ) (source : Source)
    (query : Str) (searchQueries : List Str) (_targetLength : ℕ) :
    ProcessedSource × ℕ × List Str :=
  if truthyStr source.summary && decide (20 < (source.summary.getD []).length) then
    ({ toSource := { source with content := some (source.summary.getD []) },
       relevanceScore := calculateRelevanceFromSummary (source.summary.getD [])
         query searchQueries,
       extractedSections := [source.summary.getD []],
       keywords := extractKeywords query searchQueries,
       summarized := some true }, c, [])
  else if !truthyStr source.content
      || decide ((source.content.getD []).length < 100) then
    ({ toSource := source, relevanceScore := 0, extractedSections := [],
       keywords := [], summarized := some false }, c, [])
  else
    match oracle c with
    | .ok t =>
      let summary := trimStr t
      ({ toSource := { source with content := some summary },
         relevanceScore := calculateRelevanceFromSummary summary query
           searchQueries,
         extractedSections := [summary],
         keywords := extractKeywords query searchQueries,
         summarized := some true }, c + 1, [source.url])
    | .error _ =>
      (processSource source (extractKeywords query searchQueries), c + 1,
        [source.url])

/-- `ContextProcessor.processSources`: the fast path maps summaries
directly (no model calls); the slow path summarizes the top 8 sources
by quality and keeps the positively-relevant ones, sorted by descending
relevance. -/
def processSources (oracle : ℕ → Except Unit Str) (c : ℕ) (query : Str)
    (sources : List Source) (searchQueries : List Str) :
    List ProcessedSource × ℕ × List Str :=
  let sourcesWithSummaries := sources.filter
    (fun s => truthyStr s.summary && decide (20 < (s.summary.getD []).length))
  if Nat.min sources.length 8 ≤ sourcesWithSummaries.length then
    ((sourcesWithSummaries.map (fun source =>
        { toSource := { source with content := some (source.summary.getD []) },
          relevanceScore := match source.quality with
            | some q => if q = 0 then 7/10 else q
            | none => (7/10 : ℚ),
          extractedSections := [source.summary.getD []],
          keywords := extractKeywords query searchQueries,
          summarized := some true })).mergeSort
        (fun a b => decide (b.relevanceScore ≤ a.relevanceScore)),
      c, [])
  else
    let sourcesToProcess := ((sources.filter
        (fun s => truthyStr s.content || truthyStr s.summary)).mergeSort
        (fun a b => decide ((b.quality.getD 0) ≤ (a.quality.getD 0)))).take 8
    let summaryLength := calculateSummaryLength sourcesToProcess.length
    let step := sourcesToProcess.foldl
      (fun (acc : List ProcessedSource × ℕ × List Str) source =>
        let r := summarizeSource oracle acc.2.1 source query searchQueries
          summaryLength
        (acc.1 ++ [r.1], r.2.1, acc.2.2 ++ r.2.2)) ([], c, [])
    ((step.1.filter (fun s => decide (0 < s.relevanceScore))).mergeSort
        (fun a b => decide (b.relevanceScore ≤ a.relevanceScore)),
      step.2.1, step.2.2)

/-- The `'\n\n[...]\n\n'` separator between extracted sections. -/
def sectionSeparator : Str := str "\n\n[...]\n\n"

/-- The `'\n[... content truncated]'` marker appended on truncation. -/
def truncationMarker : Str := str "\n[... content truncated]"

/-- The per-source content assembly of `distributeCharacterBudget`: join
extracted sections (topping up from the raw content when short), or take
a prefix of the content; then truncate to the target, appending the
truncation marker. -/
def budgetContent (source : ProcessedSource) (targetChars : ℤ) : Str :=
  let base :=
    if !source.extractedSections.isEmpty then
      let joined := List.intercalate sectionSeparator source.extractedSections
      if decide ((joined.length : ℤ) < targetChars) && truthyStr source.content
      then
        let additional := (source.content.getD []).take
          (targetChars - joined.length).toNat
        additional ++ sectionSeparator ++ joined
      else joined
    else (source.content.getD []).take targetChars.toNat
  if (base.length : ℤ) > targetChars then
    base.take targetChars.toNat ++ truncationMarker
  else base

/-- The per-source target of `distributeCharacterBudget`:
`Math.max(MIN, Math.min(floor(ratio * MAX_TOTAL), MAX, remainingBudget))`. -/
def budgetTarget (totalRelevance : ℚ) (source : ProcessedSource)
    (remainingBudget : ℤ) : ℤ :=
  zMax (MIN_CHARS_PER_SOURCE : ℤ)
    (zMin ⌊(source.relevanceScore / totalRelevance) * (MAX_TOTAL_CHARS : ℚ)⌋
      (zMin (MAX_CHARS_PER_SOURCE : ℤ) remainingBudget))

/-- The budget-distribution loop: each source's target is the floor of its
proportional share clamped to the per-source floor and ceiling and the
remaining budget; the loop stops once the remaining budget is spent. -/
def budgetLoop (totalRelevance : ℚ) :
    List ProcessedSource → ℤ → List ProcessedSource
  | [], _ => []
  | source :: rest, remainingBudget =>
    if remainingBudget ≤ 0 then []
    else
      let targetChars := budgetTarget totalRelevance source remainingBudget
      let processedContent := budgetContent source targetChars
      { source with content := some processedContent }
        :: budgetLoop totalRelevance rest
            (remainingBudget - processedContent.length)

/-- `ContextProcessor.distributeCharacterBudget`: zero-relevance sources
are excluded; when none are relevant, the first 5 sources are kept with
content truncated to the per-source ceiling. -/
def distributeCharacterBudget (sources : List ProcessedSource) :
    List ProcessedSource :=
  let relevantSources := sources.filter (fun s => decide (0 < s.relevanceScore))
  if relevantSources.isEmpty then
    (sources.take 5).map (fun s =>
      { s with content := some ((s.content.getD []).take MAX_CHARS_PER_SOURCE) })
  else
    let totalRelevance := relevantSources.foldl
      (fun acc s => acc + s.relevanceScore) 0
    budgetLoop totalRelevance relevantSources (MAX_TOTAL_CHARS : ℤ)

/-- Total number of characters of content allocated to a budgeted list. -/
def totalContentLength (sources : List ProcessedSource) : ℕ :=
  (sources.map (fun s => (s.content.getD []).length)).sum

/-! ## Run state and channel reducers (langgraph-search-engine.ts, 85-181)

`SearchStateAnnotation` declares one channel per field.  A node returns a
partial update; every reducer treats an absent or `undefined` value as
"keep the existing value" (`(x, y) => y ?? x`, and the two array reducers
return the existing array for an `undefined` update), so updates are
embedded as `Option` fields with `none` for absent/undefined. -/

/-- The run state threaded through the graph. -/
structure SearchState where
  query : Str
  context : Option (List (Str × Str))
  understanding : Option Str
  searchQueries : Option (List Str)
  currentSearchIndex : ℕ
  sources : List Source
  scrapedSources : List Source
  processedSources : Option (List Source)
  finalAnswer : Option Str
  followUpQuestions : Option (List Str)
  subQueries : Option (List SubQuery)
  searchAttempt : ℕ
  phase : SearchPhase
  error : Option Str
  errorType : Option ErrorType
  maxRetries : ℕ
  retryCount : ℕ
deriving DecidableEq, Repr

/-- A node's partial state update (`Partial<SearchState>`); `none` is an
absent or `undefined` key. -/
structure StateUpdate where
  understanding : Option Str := none
  searchQueries : Option (List Str) := none
  currentSearchIndex : Option ℕ := none
  sources : Option (List Source) := none
  scrapedSources : Option (List Source) := none
  processedSources : Option (List Source) := none
  finalAnswer : Option Str := none
  followUpQuestions : Option (List Str) := none
  subQueries : Option (List SubQuery) := none
  searchAttempt : Option ℕ := none
  phase : Option SearchPhase := none
  error : Option Str := none
  errorType : Option ErrorType := none
  retryCount : Option ℕ := none
deriving DecidableEq, Repr

/-- Apply one update through the per-channel reducers: `sources` merges by
URL, `scrapedSources` appends, everything else is last-write-wins with
`undefined` keeping the previous value. -/
def applyUpdate (s : SearchState) (u : StateUpdate) : SearchState :=
  { s with
    understanding := u.understanding.or s.understanding
    searchQueries := u.searchQueries.or s.searchQueries
    currentSearchIndex := u.currentSearchIndex.getD s.currentSearchIndex
    sources := sourcesReducer s.sources u.sources
    scrapedSources := s.scrapedSources ++ u.scrapedSources.getD []
    processedSources := u.processedSources.or s.processedSources
    finalAnswer := u.finalAnswer.or s.finalAnswer
    followUpQuestions := u.followUpQuestions.or s.followUpQuestions
    subQueries := u.subQueries.or s.subQueries
    searchAttempt := u.searchAttempt.getD s.searchAttempt
    phase := u.phase.getD s.phase
    error := u.error.or s.error
    errorType := u.errorType.or s.errorType
    retryCount := u.retryCount.getD s.retryCount }

/-! ## Collaborator oracles

Every Language Model Gateway and Content Fetcher interaction is an oracle
indexed by a global invocation counter, so that one environment value can
make distinct calls behave differently.  Only the success/failure shape
and returned payloads matter to control flow; prompt text does not. -/

/-- Result of `JSON.parse` on the sub-query extraction response:
`parsed` is a well-formed array of `{question, searchQuery}` objects,
`fallbackSingle` is the model-failure/parse-failure catch inside
`extractSubQueries` (fall back to the query itself), and `malformed` is a
response that parses to a non-array, making `extracted.map` throw inside
the planning node (caught there as an llm error). -/
inductive ExtractOutcome
  | parsed (qs : List (Str × Str))
  | fallbackSingle
  | malformed (msg : Str)
deriving Repr

/-- Result of `firecrawl.scrapeUrl`: a settled response object
`{success, markdown?, error?}` or a thrown exception. -/
inductive ScrapeOutcome
  | ret (success : Bool) (markdown : Option Str) (error : Option Str)
  | exn
deriving Repr

/-- The collaborator environment.  `hostname` models the platform's
`new URL(u).hostname`; its `error` case is a constructor throw (invalid
URL), which propagates out of the scraping node. -/
structure EngineEnv where
  analyzeQuery : ℕ → Except Str Str
  extractSubQueries : ℕ → ExtractOutcome
  altQueries : ℕ → Except Unit Str
  hasVersionPattern : Str → Bool
  firecrawlSearch : ℕ → Str → Except Unit (List SearchResult)
  summarizeLLM : ℕ → Except Unit Str
  scrapeUrl : ℕ → Str → ScrapeOutcome
  hostname : Str → Except Str Str
  checkAnswers : ℕ → Option (List CheckResult)
  ctxSummarize : ℕ → Except Unit Str
  answerStream : ℕ → List Str × Bool
  answerFallback : ℕ → Except Str Str
  followUps : ℕ → Except Unit Str

/-- The result of executing one graph node: its partial update, the
events it emitted (the event callback is always installed by `search()`),
the next oracle counter, and an escaped exception if one was thrown. -/
structure NodeOut where
  update : StateUpdate
  events : List SearchEvent
  counter : ℕ
  threw : Option Str := none

/-! ## Helper methods used by the nodes -/

/-- `summarizeContent` (lines 1421-1448): one fast-tier call; the catch
returns the empty string. -/
def summarizeContent (env : EngineEnv) (c : ℕ) : Str × ℕ :=
  match env.summarizeLLM c with
  | .ok t => (trimStr t, c + 1)
  | .error _ => ([], c + 1)

/-- A quote character for `/^["']|["']$/`. -/
def isQuoteChar (c : Char) : Bool := c = '"' || c = '\x27'

/-- `q.replace(/^["']|["']$/g, '')`: strip one leading and one trailing
quote character. -/
def stripWrappingQuotes (q : Str) : Str :=
  let q1 := match q with
    | c :: rest => if isQuoteChar c then rest else q
    | [] => []
  match q1.getLast? with
  | some c => if isQuoteChar c then q1.dropLast else q1
  | none => q1

/-- `q.replace(/^\d+\.\s*/, '')`: strip a leading "1. " style number. -/
def stripNumberPrefix (q : Str) : Str :=
  let ds := q.takeWhile Char.isDigit
  if ds.isEmpty then q
  else match q.drop ds.length with
    | '.' :: rest => rest.dropWhile Char.isWhitespace
    | _ => q

/-- `q.replace(/^[-*#]\s*/, '')`: strip a leading bullet. -/
def stripBulletPrefix (q : Str) : Str :=
  match q with
  | c :: rest =>
    if c = '-' || c = '*' || c = '#' then rest.dropWhile Char.isWhitespace
    else q
  | [] => []

/-- The alternation of `/0528|specific version/gi`. -/
def versionTokens : List Str := [str "0528", str "specific version"]

/-- Left-to-right case-insensitive removal of every occurrence of one of
the patterns, the way a global regex replace with an empty replacement
scans; the fuel is the string length (each step consumes one or more
characters). -/
def replaceAllCIAux (pats : List Str) : ℕ → Str → Str
  | 0, s => s
  | _ + 1, [] => []
  | fuel + 1, c :: rest =>
    match pats.find? (fun p =>
        !p.isEmpty && (toLower p).isPrefixOf (toLower (c :: rest))) with
    | some p => replaceAllCIAux pats fuel ((c :: rest).drop p.length)
    | none => c :: replaceAllCIAux pats fuel rest

/-- Entry point of the case-insensitive global replace-with-empty. -/
def replaceAllCI (pats : List Str) (s : Str) : Str :=
  replaceAllCIAux pats (s.length + 1) s

/-- `generateAlternativeSearchQueries` (lines 1337-1407): the version-token
heuristic avoids a model call; otherwise one model call whose response is
split, trimmed, stripped of quotes/numbering/bullets, and filtered, with
a deterministic fallback on failure. -/
def generateAlternativeSearchQueries (cfg : SearchConfig) (env : EngineEnv)
    (c : ℕ) (subQueries : List SubQuery) (previousAttempts : ℕ) :
    List Str × ℕ :=
  let unanswered := subQueries.filter (fun sq =>
    !sq.answered || decide (sq.confidence < cfg.MIN_ANSWER_CONFIDENCE))
  let viaModel : List Str × ℕ :=
    match env.altQueries c with
    | .ok result =>
      let queries := ((((((List.splitOn '\n' result).map trimStr).map
          stripWrappingQuotes).map stripNumberPrefix).map stripBulletPrefix).filter
          (fun q => decide (0 < q.length))).filter
          (fun q => !(str "```").isPrefixOf q) |>.filter
          (fun q => decide (3 < q.length))
      (queries.take cfg.MAX_SEARCH_QUERIES, c + 1)
    | .error _ =>
      ((unanswered.map (fun sq => sq.searchQuery ++ str " news reports")).take
        cfg.MAX_SEARCH_QUERIES, c + 1)
  if 2 ≤ previousAttempts then
    let problematic := unanswered.filter (fun sq => env.hasVersionPattern sq.question)
    if !problematic.isEmpty then
      (problematic.map (fun sq =>
        (trimStr (replaceAllCI versionTokens sq.question)).take 50), c)
    else viaModel
  else viaModel

/-- `generateStreamingAnswer` (lines 1450-1538): the emitted chunks, the
final text (or the propagated exception when both the stream and the
non-streaming fallback fail), and the next counter.  When the stream
fails midway the already-emitted chunks stand and the fallback's full
text is emitted as one more chunk. -/
def generateStreamingAnswer (env : EngineEnv) (c : ℕ) :
    Except Str Str × List SearchEvent × ℕ :=
  let st := env.answerStream c
  let evs := st.1.map SearchEvent.contentChunk
  if st.2 then (.ok st.1.flatten, evs, c + 1)
  else
    match env.answerFallback (c + 1) with
    | .ok t => (.ok t, evs ++ [.contentChunk t], c + 2)
    | .error m => (.error m, evs, c + 2)

/-! ## Graph nodes (buildGraph, lines 355-1014) -/

/-- The `understand` node. -/
def understandNode (env : EngineEnv) (c : ℕ) (_s : SearchState) : NodeOut :=
  let ev0 := [SearchEvent.phaseUpdate .understanding
    (str "Analyzing your request...")]
  match env.analyzeQuery c with
  | .ok u =>
    { update := { understanding := some u, phase := some .planning },
      events := ev0 ++ [.thinking u], counter := c + 1 }
  | .error msg =>
    { update :=
        { error := some msg, errorType := some .llm,
          phase := some .error },
      events := ev0, counter := c + 1 }

/-- The `plan` node: speed mode uses the raw query; normal mode extracts
sub-queries (with fallback), skips to analysis when none are unanswered,
and regenerates alternative phrasings on retries. -/
def planNode (cfg : SearchConfig) (env : EngineEnv) (c : ℕ)
    (s : SearchState) : NodeOut :=
  let ev0 := [SearchEvent.phaseUpdate .planning
    (str "Planning search strategy...")]
  if cfg.SPEED_MODE then
    { update :=
        { searchQueries := some [s.query],
          currentSearchIndex := some 0, phase := some .searching },
      events := ev0 ++ [.thinking
        (str "Quick search strategy: using direct query approach for speed")],
      counter := c }
  else
    let ext : Option (List SubQuery) × ℕ × Option Str :=
      match s.subQueries with
      | some sqs => (some sqs, c, none)
      | none =>
        match env.extractSubQueries c with
        | .parsed qs => (some (qs.map (fun q =>
            { question := q.1, searchQuery := q.2, answered := false,
              answer := none, confidence := 0, sources := [] })), c + 1, none)
        | .fallbackSingle => (some [
            { question := s.query, searchQuery := s.query, answered := false,
              answer := none, confidence := 0, sources := [] }], c + 1, none)
        | .malformed msg => (none, c + 1, some msg)
    match ext with
    | (none, c1, msg) =>
      { update :=
          { error := some (msg.getD []), errorType := some .llm,
            phase := some .error },
        events := ev0, counter := c1 }
    | (some subQueries, c1, _) =>
      let unanswered := subQueries.filter (fun sq =>
        !sq.answered || decide (sq.confidence < cfg.MIN_ANSWER_CONFIDENCE))
      if unanswered.isEmpty then
        { update := { subQueries := some subQueries, phase := some .analyzing },
          events := ev0, counter := c1 }
      else if 0 < s.searchAttempt then
        let alt := generateAlternativeSearchQueries cfg env c1 subQueries
          s.searchAttempt
        let searchQueries := alt.1
        let updatedSubQueries := (subQueries.foldl
          (fun (acc : List SubQuery × ℕ) sq =>
            if !sq.answered || decide (sq.confidence < cfg.MIN_ANSWER_CONFIDENCE)
            then
              if acc.2 < searchQueries.length then
                (acc.1 ++ [{ sq with
                  searchQuery := searchQueries.getD acc.2 sq.searchQuery }],
                 acc.2 + 1)
              else (acc.1 ++ [sq], acc.2)
            else (acc.1 ++ [sq], acc.2)) ([], 0)).1
        { update :=
            { searchQueries := some searchQueries,
              subQueries := some updatedSubQueries, currentSearchIndex := some 0,
              phase := some .searching },
          events := ev0 ++ [.thinking
            (str "Trying alternative search strategies for: "
              ++ List.intercalate (str ", ")
                (unanswered.map (fun sq => sq.question)))],
          counter := alt.2 }
      else
        let searchQueries := unanswered.map (fun sq => sq.searchQuery)
        { update :=
            { searchQueries := some searchQueries,
              subQueries := some subQueries, currentSearchIndex := some 0,
              phase := some .searching },
          events := ev0 ++ [.thinking
            (if 3 < searchQueries.length then
              str "I detected " ++ natToStr subQueries.length
                ++ str " different questions. I\x27ll search for each one separately."
            else str "I\x27ll search for information to answer your question.")],
          counter := c1 }

/-- The per-result processing of the `search` node: score, then summarize
when the content is long enough, keeping the summary only when non-empty
and free of the "no specific" marker.  (The parallel and sequential
variants produce the same record list; the embedding serializes.) -/
def processFoundSource (cfg : SearchConfig) (env : EngineEnv) (query : Str)
    (acc : List Source × List SearchEvent × ℕ) (source : Source) :
    List Source × List SearchEvent × ℕ :=
  let source1 := { source with
    quality := some (scoreContent (source.content.getD []) query) }
  if truthyStr source1.content
      && decide (cfg.MIN_CONTENT_LENGTH < (source1.content.getD []).length) then
    let sc := summarizeContent env acc.2.2
    if !sc.1.isEmpty && !includesStr (toLower sc.1) (str "no specific") then
      (acc.1 ++ [{ source1 with summary := some sc.1 }],
       acc.2.1 ++ [.sourceComplete source1.url sc.1], sc.2)
    else (acc.1 ++ [source1], acc.2.1, sc.2)
  else (acc.1 ++ [source1], acc.2.1, acc.2.2)

/-- The `search` node: one query per invocation; a fetch failure records
the error kind and advances the index without flipping the phase. -/
def searchNode (cfg : SearchConfig) (env : EngineEnv) (c : ℕ)
    (s : SearchState) : NodeOut :=
  let searchQueries := s.searchQueries.getD []
  let currentIndex := s.currentSearchIndex
  let ev0 := if currentIndex = 0 then
      [SearchEvent.phaseUpdate .searching (str "Searching the web...")]
    else []
  if searchQueries.length ≤ currentIndex then
    { update := { phase := some .scrape }, events := ev0, counter := c }
  else
    let searchQuery := searchQueries.getD currentIndex []
    let ev1 := ev0 ++ [.searching searchQuery (currentIndex + 1)
      searchQueries.length]
    match env.firecrawlSearch c searchQuery with
    | .error _ =>
      { update :=
          { currentSearchIndex := some (currentIndex + 1),
            errorType := some .search },
        events := ev1, counter := c + 1 }
    | .ok results =>
      let newSources : List Source := results.map (fun r =>
        { url := r.url, title := r.title,
          content := some (jsOrStr r.markdown r.content),
          quality := some 0, summary := none })
      let proc := newSources.foldl (processFoundSource cfg env s.query)
        ([], [], c + 1)
      { update :=
          { sources := some proc.1,
            currentSearchIndex := some (currentIndex + 1) },
        events := ev1 ++ [.found newSources searchQuery] ++ proc.2.1,
        counter := proc.2.2 }

/-- The accumulator of the scraping loop. -/
structure ScrapeAcc where
  scraped : List Source
  events : List SearchEvent
  counter : ℕ
  threw : Option Str := none

/-- One iteration of the scraping loop: fetch, re-score, re-summarize;
timeouts and fetch errors are absorbed with a `thinking` event, except
that an invalid URL makes `new URL(...)` throw out of the node (the catch
block constructs the URL again). -/
def scrapeStep (env : EngineEnv) (query : Str) (total : ℕ)
    (acc : ScrapeAcc) (source : Source) : ScrapeAcc :=
  if acc.threw.isSome then acc
  else
    let ev1 := acc.events ++ [SearchEvent.scraping source.url
      (acc.scraped.length + 1) total query]
    match env.scrapeUrl acc.counter source.url with
    | .ret success markdown err =>
      if success && truthyStr markdown then
        let md := markdown.getD []
        let enriched : Source :=
            { source with
              content := some md,
              quality := some (scoreContent md query) }
        let ev2 := ev1 ++ [.sourceProcessing source.url source.title .browsing]
        let sc := summarizeContent env (acc.counter + 1)
        if !sc.1.isEmpty then
          { scraped := acc.scraped ++ [{ enriched with summary := some sc.1 }],
            events := ev2 ++ [.sourceComplete source.url sc.1],
            counter := sc.2 }
        else
          { scraped := acc.scraped ++ [enriched], events := ev2,
            counter := sc.2 }
      else if err = some (str "timeout") then
        match env.hostname source.url with
        | .ok h =>
          { scraped := acc.scraped,
            events := ev1 ++ [.thinking
              (h ++ str " is taking too long to respond, moving on...")],
            counter := acc.counter + 1 }
        | .error m =>
          { scraped := acc.scraped, events := ev1,
            counter := acc.counter + 1, threw := some m }
      else
        { scraped := acc.scraped, events := ev1, counter := acc.counter + 1 }
    | .exn =>
      match env.hostname source.url with
      | .ok h =>
        { scraped := acc.scraped,
          events := ev1 ++ [.thinking (str "Couldn\x27t access " ++ h
            ++ str ", trying other sources...")],
          counter := acc.counter + 1 }
      | .error m =>
        { scraped := acc.scraped, events := ev1,
          counter := acc.counter + 1, threw := some m }

/-- The `scrape` node: sources with sufficient content pass through; the
rest are fetched (bounded by the scrape cap), with per-source failures
absorbed. -/
def scrapeNode (cfg : SearchConfig) (env : EngineEnv) (c : ℕ)
    (s : SearchState) : NodeOut :=
  let sourcesToScrape := s.sources.filter (fun src =>
    !truthyStr src.content
      || decide ((src.content.getD []).length < cfg.MIN_CONTENT_LENGTH))
  let sourcesWithContent := s.sources.filter (fun src =>
    truthyStr src.content
      && decide (cfg.MIN_CONTENT_LENGTH ≤ (src.content.getD []).length))
  let total := sourcesWithContent.length
    + Nat.min sourcesToScrape.length cfg.MAX_SOURCES_TO_SCRAPE
  let loop := (sourcesToScrape.take
      (Nat.min sourcesToScrape.length cfg.MAX_SOURCES_TO_SCRAPE)).foldl
    (scrapeStep env s.query total)
    { scraped := sourcesWithContent, events := [], counter := c }
  match loop.threw with
  | some m =>
    { update := {}, events := loop.events, counter := loop.counter,
      threw := some m }
  | none =>
    { update :=
        { scrapedSources := some loop.scraped,
          phase := some .analyzing },
      events := loop.events, counter := loop.counter }

/-- The `analyze` node's URL merge of `sources` and `scrapedSources`
(later values win, same `Map` pattern as the reducer). -/
def analyzeMerge (sources scrapedSources : List Source) : List Source :=
  dedupByUrl (sources ++ scrapedSources)

/-- The speed-mode comparator: sources with a summary first, then by
descending quality (`a` may precede `b` when this relation holds). -/
def speedModeLE (a b : Source) : Bool :=
  if truthyStr a.summary && !truthyStr b.summary then true
  else if !truthyStr a.summary && truthyStr b.summary then false
  else decide ((b.quality.getD 0) ≤ (a.quality.getD 0))

/-- The speed-mode source selection of the `analyze` node. -/
def speedModeSelect (cfg : SearchConfig) (allSources : List Source) :
    List Source :=
  ((allSources.filter
    (fun (s : Source) => truthyStr s.content || truthyStr s.summary)).mergeSort
    speedModeLE).take cfg.MAX_SOURCES_TO_CHECK

/-- The `analyze` node: merge, then either the speed path straight to
synthesis, or answer-checking with a bounded retry loop back to planning,
followed by context processing.  (`processSources` never throws, so the
source's catch fallbacks are unreachable; with `SPEED_MODE` false the
inner speed-mode checks are dead.) -/
def analyzeNode (cfg : SearchConfig) (env : EngineEnv) (c : ℕ)
    (s : SearchState) : NodeOut :=
  let ev0 := [SearchEvent.phaseUpdate .analyzing
    (str "Analyzing gathered information...")]
  let allSources := analyzeMerge s.sources s.scrapedSources
  if cfg.SPEED_MODE then
    { update :=
        { sources := some allSources,
          processedSources := some (speedModeSelect cfg allSources),
          phase := some .synthesizing },
      events := ev0 ++ (if 0 < allSources.length then
        [.thinking (str "Found " ++ natToStr allSources.length
          ++ str " sources - moving to synthesis for speed")] else []),
      counter := c }
  else
    match s.subQueries with
    | some sqs =>
      let chk := checkAnswersInSources cfg sqs allSources (env.checkAnswers c)
      let updatedSubQueries := chk.1
      let c1 := if chk.2 then c + 1 else c
      let answeredCount := (updatedSubQueries.filter (fun sq => sq.answered)).length
      let totalQuestions := updatedSubQueries.length
      let searchAttempt := s.searchAttempt + 1
      let partialAnswers := updatedSubQueries.filter
        (fun sq => decide ((3 : ℚ)/10 ≤ sq.confidence))
      let hasPartialInfo := answeredCount < partialAnswers.length
      let ev1 := ev0 ++ [SearchEvent.thinking
        (if answeredCount = totalQuestions then
          str "Found answers to all " ++ natToStr totalQuestions
            ++ str " questions across " ++ natToStr allSources.length
            ++ str " sources"
        else if 0 < answeredCount then
          str "Found answers to " ++ natToStr answeredCount ++ str " of "
            ++ natToStr totalQuestions ++ str " questions. Still missing: "
            ++ List.intercalate (str ", ")
              ((updatedSubQueries.filter (fun sq => !sq.answered)).map
                (fun sq => sq.question))
        else if cfg.MAX_SEARCH_ATTEMPTS ≤ searchAttempt then
          str "Could not find specific answers in "
            ++ natToStr allSources.length
            ++ str " sources. The information may not be publicly available."
        else if hasPartialInfo && decide (3 ≤ searchAttempt) then
          str "Found partial information. Moving forward with what\x27s available."
        else str "Searching for more specific information...")]
      if answeredCount < totalQuestions
          ∧ searchAttempt < cfg.MAX_SEARCH_ATTEMPTS
          ∧ ¬(hasPartialInfo = true ∧ 2 ≤ searchAttempt) then
        { update :=
            { sources := some allSources,
              subQueries := some updatedSubQueries,
              searchAttempt := some searchAttempt, phase := some .planning },
          events := ev1, counter := c1 }
      else
        let ps := processSources env.ctxSummarize c1 s.query allSources
          (s.searchQueries.getD [])
        { update :=
            { sources := some allSources,
              processedSources := some (ps.1.map ProcessedSource.toSource),
              subQueries := some updatedSubQueries,
              searchAttempt := some searchAttempt, phase := some .synthesizing },
          events := ev1, counter := ps.2.1 }
    | none =>
      let ps := processSources env.ctxSummarize c s.query allSources
        (s.searchQueries.getD [])
      { update :=
          { sources := some allSources,
            processedSources := some (ps.1.map ProcessedSource.toSource),
            phase := some .synthesizing },
        events := ev0 ++ (if 0 < allSources.length then
          [.thinking (str "Found " ++ natToStr allSources.length
            ++ str " sources with quality information")] else []),
        counter := ps.2.1 }

/-- The `synthesize` node: stream the answer, then the follow-ups; only a
failure of both the stream and its fallback routes to the error state. -/
def synthesizeNode (_cfg : SearchConfig) (env : EngineEnv) (c : ℕ)
    (_s : SearchState) : NodeOut :=
  let ev0 := [SearchEvent.phaseUpdate .synthesizing
    (str "Creating comprehensive answer...")]
  let ga := generateStreamingAnswer env c
  match ga.1 with
  | .error msg =>
    { update :=
        { error := some msg, errorType := some .llm,
          phase := some .error },
      events := ev0 ++ ga.2.1, counter := ga.2.2 }
  | .ok answer =>
    let fu := generateFollowUpQuestions (env.followUps ga.2.2)
    { update :=
        { finalAnswer := some answer, followUpQuestions := some fu,
          phase := some .complete },
      events := ev0 ++ ga.2.1, counter := ga.2.2 + 1 }

/-- The `handleError` node.  Note that its returned
`error: undefined, errorType: undefined` pass through the `(x, y) => y ?? x`
reducers, which keep the previous values — embedded as `none` updates. -/
def handleErrorNode (cfg : SearchConfig) (c : ℕ) (s : SearchState) : NodeOut :=
  let ev := [SearchEvent.errorEvent
    (match s.error with
      | some e => if e.isEmpty then str "An unknown error occurred" else e
      | none => str "An unknown error occurred") s.errorType]
  let maxR := if s.maxRetries = 0 then cfg.MAX_RETRIES else s.maxRetries
  if s.retryCount < maxR then
    let retryPhase := if s.errorType = some ErrorType.search then
        SearchPhase.searching
      else SearchPhase.understanding
    { update :=
        { retryCount := some (s.retryCount + 1),
          phase := some retryPhase },
      events := ev, counter := c }
  else
    { update := { phase := some .error }, events := ev, counter := c }

/-- The `complete` node: the final `phase-update(complete)` and
`final-result` pair. -/
def completeNode (c : ℕ) (s : SearchState) : NodeOut :=
  { update := { phase := some .complete },
    events := [SearchEvent.phaseUpdate .complete (str "Search complete!"),
    .finalResult (s.finalAnswer.getD []) s.sources s.followUpQuestions],
    counter := c }

/-! ## Graph wiring (lines 1016-1091) and the `search` entry point -/

/-- The graph's node identifiers. -/
inductive NodeId
  | understand
  | plan
  | search
  | scrape
  | analyze
  | synthesize
  | handleError
  | complete
deriving DecidableEq, Repr

/-- Dispatch one node. -/
def runNode (cfg : SearchConfig) (env : EngineEnv) (node : NodeId) (c : ℕ)
    (s : SearchState) : NodeOut :=
  match node with
  | .understand => understandNode env c s
  | .plan => planNode cfg env c s
  | .search => searchNode cfg env c s
  | .scrape => scrapeNode cfg env c s
  | .analyze => analyzeNode cfg env c s
  | .synthesize => synthesizeNode cfg env c s
  | .handleError => handleErrorNode cfg c s
  | .complete => completeNode c s

/-- The conditional edges; `none` is `END`. -/
def nextNode : NodeId → SearchState → Option NodeId
  | .understand, s => some (if s.phase = .error then .handleError else .plan)
  | .plan, s => some (if s.phase = .error then .handleError else .search)
  | .search, s => some (if s.phase = .error then .handleError
      else if s.currentSearchIndex < (s.searchQueries.getD []).length then
        .search
      else .scrape)
  | .scrape, s => some (if s.phase = .error then .handleError else .analyze)
  | .analyze, s => some (if s.phase = .error then .handleError
      else if s.phase = .planning then .plan else .synthesize)
  | .synthesize, s => some (if s.phase = .error then .handleError
      else .complete)
  | .handleError, s => if s.phase = .error then none else some .understand
  | .complete, _ => none

/-- How a run ends: the graph reached `END`, or an exception escaped (a
node threw, or the recursion limit was hit). -/
inductive RunOutcome
  | finished (s : SearchState)
  | threw (msg : Str)

/-- The message of LangGraph's recursion-limit error. -/
def recursionLimitMessage : Str :=
  str "Recursion limit of 35 reached without hitting a stop condition."

/-- Execute the graph: run a node, apply its update through the reducers,
follow the conditional edge, and stop at `END`; the fuel models the
`recursionLimit: 35` super-step bound. -/
def runGraph (cfg : SearchConfig) (env : EngineEnv) :
    ℕ → ℕ → NodeId → SearchState → List SearchEvent × RunOutcome
  | 0, _, _, _ => ([], .threw recursionLimitMessage)
  | fuel + 1, c, node, s =>
    let out := runNode cfg env node c s
    match out.threw with
    | some msg => (out.events, .threw msg)
    | none =>
      let s2 := applyUpdate s out.update
      match nextNode node s2 with
      | none => (out.events, .finished s2)
      | some n2 =>
        let rest := runGraph cfg env fuel out.counter n2 s2
        (out.events ++ rest.1, rest.2)

/-- The initial state built by `search()` (lines 1100-1118). -/
def initialState (cfg : SearchConfig) (query : Str)
    (context : Option (List (Str × Str))) : SearchState :=
  { query := query, context := context, sources := [], scrapedSources := [],
    processedSources := none, phase := .understanding,
    currentSearchIndex := 0, maxRetries := cfg.MAX_RETRIES, retryCount := 0,
    understanding := none, searchQueries := none, finalAnswer := none,
    followUpQuestions := none, error := none, errorType := none,
    subQueries := none, searchAttempt := 0 }

/-- `LangGraphSearchEngine.search`: invoke the graph with recursion limit
35; any escaped exception is caught and surfaced as one final
`error`-typed event carrying the exception's message (every exception in
the embedding is an `Error` with a message, so the non-`Error` fallback
text never applies). -/
def engineSearch (cfg : SearchConfig) (env : EngineEnv) (query : Str)
    (context : Option (List (Str × Str))) :
    List SearchEvent × Option SearchState :=
  match runGraph cfg env 35 0 .understand (initialState cfg query context) with
  | (evs, .finished sf) => (evs, some sf)
  | (evs, .threw msg) => (evs ++ [.errorEvent msg (some .unknown)], none)

/-- The trace ends with the `phase-update(complete)` / `final-result`
pair. -/
def endsWithFinalPair (evs : List SearchEvent) : Prop :=
  ∃ pre msg content sources fu,
    evs = pre ++ [SearchEvent.phaseUpdate .complete msg,
      SearchEvent.finalResult content sources fu]

/-- The trace ends with an `error`-typed event. -/
def endsWithErrorEvent (evs : List SearchEvent) : Prop :=
  ∃ pre msg et, evs = pre ++ [SearchEvent.errorEvent msg et]

/-! ## Concrete fixtures used by witnesses and counterexamples -/

/-- A fresh sub-query, as built by the planning node. -/
def witSubQuery : SubQuery where
  question := str "Who founded Anthropic?"
  searchQuery := str "Anthropic founders"
  answered := false
  answer := none
  confidence := 0
  sources := []

/-- A parsed answer-check entry matching `witSubQuery`. -/
def witCheckResult : CheckResult where
  question := str "Who founded Anthropic?"
  answered := true
  confidence := 1/2
  answer := some (str "Dario Amodei and others")
  sources := some [str "https://example.com"]

/-- A fetched source used to make the answer-check source list non-empty. -/
def witSource : Source where
  url := str "https://example.com"
  title := str "About"
  content := some (str "Anthropic was founded in 2021")
  quality := some 0
  summary := none

/-- A source carrying a usable summary but an explicit zero quality
score — the search node can produce exactly this shape. -/
def srcC7 : Source where
  url := str "https://site"
  title := str "T"
  content := none
  quality := some 0
  summary := some (str "twenty-one characters")

/-- 15,000 characters of content for the budget counterexample. -/
def bigContent : Str := List.replicate 15000 'a'

/-- A budget-counterexample source with the given relevance score: one
15,000-character extracted section backed by 15,000 characters of
content. -/
def mkBudgetSource (rel : ℚ) : ProcessedSource where
  url := str "https://site"
  title := str "T"
  content := some bigContent
  quality := none
  summary := none
  relevanceScore := rel
  extractedSections := [bigContent]
  keywords := []
  summarized := none

/-- Budget-counterexample source with relevance 3/20. -/
def srcA : ProcessedSource := mkBudgetSource (3/20)

/-- Budget-counterexample source with relevance 1/10. -/
def srcB : ProcessedSource := mkBudgetSource (1/10)

/-- Six sources at relevance 3/20 plus one at 1/10: total relevance 1. -/
def budgetCounterSources : List ProcessedSource :=
  [srcA, srcA, srcA, srcA, srcA, srcA, srcB]

/-- What the budget loop emits for `srcB` with 10,000 characters of
remaining budget: a 10,000-character prefix plus the truncation marker. -/
def srcBOut : ProcessedSource :=
  { srcB with content := some (bigContent.take 10000 ++ truncationMarker) }

/-- An environment whose fetcher finds zero results and whose model calls
succeed with fixed text: drives a complete zero-source run. -/
def benignEnv : EngineEnv where
  analyzeQuery := fun _ => .ok (str "u")
  extractSubQueries := fun _ => .fallbackSingle
  altQueries := fun _ => .error ()
  hasVersionPattern := fun _ => false
  firecrawlSearch := fun _ _ => .ok []
  summarizeLLM := fun _ => .error ()
  scrapeUrl := fun _ _ => .exn
  hostname := fun u => .ok u
  checkAnswers := fun _ => none
  ctxSummarize := fun _ => .error ()
  answerStream := fun _ => ([str "ans"], true)
  answerFallback := fun _ => .error (str "no fallback")
  followUps := fun _ => .error ()

/-- The same environment except that every fetcher search call fails. -/
def failEnv : EngineEnv :=
  { benignEnv with firecrawlSearch := fun _ _ => .error () }

/-- A searching-phase state with one pending query. -/
def c6WitState : SearchState :=
  { initialState SEARCH_CONFIG (str "q") none with
    phase := .searching, searchQueries := some [str "q"] }

/-- The run state on entry to `handleError` after a search-type failure
was escalated with `phase: 'error'` (first retry still available). -/
def c5State : SearchState :=
  { initialState SEARCH_CONFIG (str "q") none with
    phase := .error, error := some (str "fetch failed"),
    errorType := some ErrorType.search }

/-! ## Theorems -/

theorem qMin_eq_min (a b : ℚ) : qMin a b = min a b := by
  simp [qMin, min_def]

theorem qMax_eq_max (a b : ℚ) : qMax a b = max a b := by
  simp [qMax, max_def]

theorem zMin_eq_min (a b : ℤ) : zMin a b = min a b := by
  simp [zMin, min_def]

theorem zMax_eq_max (a b : ℤ) : zMax a b = max a b := by
  simp [zMax, max_def]

theorem scoreContent_foldl_eq_countP (contentLower : Str) (ws : List Str) (init : ℚ) :
    ws.foldl (fun sc word => if includesStr contentLower word then sc + 1/5 else sc) init
      = init + (ws.countP (fun w => includesStr contentLower w) : ℚ) / 5 := by
  induction ws generalizing init with
  | nil => simp
  | cons w ws ih =>
    simp only [List.foldl_cons, List.countP_cons]
    by_cases h : includesStr contentLower w
    · simp only [h, if_true]
      rw [ih]
      push_cast
      ring
    · simp only [h, if_false]
      rw [ih]
      simp [h]

/-- Claim C3 (amended): content scoring is deterministic, makes no model
call, returns a value in [0, 1], and equals 0.2 per query-token
*occurrence* — the query is split on the single space character, and every
resulting token (duplicates and empty segments included) found as a
substring of the lowercased content contributes 0.2 — capped at 1.0.
Scoring the same content/query pair twice yields the same value. -/
theorem scoreContent_amended (content query : Str) :
    scoreContent content query
      = min (((List.splitOn ' ' (toLower query)).countP
          (fun w => includesStr (toLower content) w) : ℚ) / 5) 1
    ∧ 0 ≤ scoreContent content query
    ∧ scoreContent content query ≤ 1
    ∧ scoreContent content query = scoreContent content query := by
  have hfold := scoreContent_foldl_eq_countP (toLower content)
      (List.splitOn ' ' (toLower query)) 0
  have heq : scoreContent content query
      = min (((List.splitOn ' ' (toLower query)).countP
          (fun w => includesStr (toLower content) w) : ℚ) / 5) 1 := by
    simp only [scoreContent, qMin_eq_min]
    rw [hfold]
    norm_num
  refine ⟨heq, ?_, ?_, rfl⟩
  · rw [heq]
    positivity
  · rw [heq]
    exact min_le_right _ _

/-- Claim C3, counterexample: for query `"a a"` and content `"a"`, the code
scores the duplicated token twice (2/5), while the claim's
distinct-token rule yields 1/5. -/
theorem scoreContent_counterexample :
    scoreContent (str "a") (str "a a") = 2/5
    ∧ scoreContentSpecDistinct (str "a") (str "a a") = 1/5
    ∧ scoreContent (str "a") (str "a a")
        ≠ scoreContentSpecDistinct (str "a") (str "a a") := by
  have e1 : List.splitOn ' ' (toLower (str "a a")) = [['a'], ['a']] := by decide
  have e2 : includesStr (toLower (str "a")) ['a'] = true := by decide
  have e3 : dedupFirst (splitWhitespace (toLower (str "a a"))) = [['a']] := by decide
  have e4 : List.countP (fun w => includesStr (toLower (str "a")) w) [['a']] = 1 := by
    decide
  have h1 : scoreContent (str "a") (str "a a") = 2/5 := by
    simp only [scoreContent, e1, List.foldl_cons, List.foldl_nil, e2, if_true, qMin]
    norm_num
  have h2 : scoreContentSpecDistinct (str "a") (str "a a") = 1/5 := by
    simp only [scoreContentSpecDistinct, e3, e4, qMin]
    norm_num
  exact ⟨h1, h2, by rw [h1, h2]; norm_num⟩

theorem insertByUrl_map_url (m : List Source) (s : Source) :
    (insertByUrl m s).map Source.url
      = if m.any (fun t => decide (t.url = s.url)) then m.map Source.url
        else m.map Source.url ++ [s.url] := by
  unfold insertByUrl
  by_cases h : m.any (fun t => decide (t.url = s.url)) = true
  · rw [if_pos h, if_pos h, List.map_map]
    refine List.map_congr_left (fun t _ => ?_)
    by_cases ht : t.url = s.url
    · simp [Function.comp, ht]
    · simp [Function.comp, ht]
  · rw [if_neg h, if_neg h, List.map_append]
    rfl

theorem insertByUrl_nodup (m : List Source) (s : Source)
    (h : (m.map Source.url).Nodup) : ((insertByUrl m s).map Source.url).Nodup := by
  rw [insertByUrl_map_url]
  by_cases hmem : m.any (fun t => decide (t.url = s.url)) = true
  · rw [if_pos hmem]
    exact h
  · rw [if_neg hmem]
    rw [List.nodup_append]
    refine ⟨h, List.nodup_singleton _, ?_⟩
    intro u hu hmem2
    simp only [List.mem_map] at hu
    obtain ⟨t, ht, rfl⟩ := hu
    simp only [List.mem_singleton] at hmem2
    have hall : ∀ x ∈ m, x.url ≠ s.url := by
      have h0 := List.any_eq_false.mp (Bool.eq_false_iff.mpr hmem)
      simpa using h0
    exact hall t ht hmem2

theorem find?_map_subst_ne (s : Source) (u : Str) (hu : u ≠ s.url)
    (m : List Source) :
    (m.map (fun t => if t.url = s.url then s else t)).find?
        (fun t => decide (t.url = u))
      = m.find? (fun t => decide (t.url = u)) := by
  induction m with
  | nil => rfl
  | cons t m ih =>
    rw [List.map_cons]
    by_cases ht : t.url = s.url
    · rw [if_pos ht]
      have h1 : decide (s.url = u) = false := by
        simp only [decide_eq_false_iff_not]
        exact fun h => hu h.symm
      have h2 : decide (t.url = u) = false := by
        simp only [decide_eq_false_iff_not, ht]
        exact fun h => hu h.symm
      rw [List.find?_cons, List.find?_cons, h1, h2]
      exact ih
    · rw [if_neg ht]
      by_cases htu : t.url = u
      · have h1 : decide (t.url = u) = true := by simp [htu]
        rw [List.find?_cons, List.find?_cons, h1]
      · have h1 : decide (t.url = u) = false := by simp [htu]
        rw [List.find?_cons, List.find?_cons, h1]
        exact ih

theorem find?_map_subst_eq (s : Source) (m : List Source)
    (hmem : m.any (fun t => decide (t.url = s.url)) = true) :
    (m.map (fun t => if t.url = s.url then s else t)).find?
        (fun t => decide (t.url = s.url)) = some s := by
  induction m with
  | nil => simp at hmem
  | cons t m ih =>
    rw [List.map_cons]
    by_cases ht : t.url = s.url
    · rw [if_pos ht]
      have h1 : decide (s.url = s.url) = true := by simp
      rw [List.find?_cons, h1]
    · rw [if_neg ht]
      have hmem' : m.any (fun t => decide (t.url = s.url)) = true := by
        simpa [List.any_cons, ht] using hmem
      have h1 : decide (t.url = s.url) = false := by simp [ht]
      rw [List.find?_cons, h1]
      exact ih hmem'

theorem findByUrl_insertByUrl (m : List Source) (s : Source) (u : Str) :
    findByUrl (insertByUrl m s) u
      = if u = s.url then some s else findByUrl m u := by
  unfold findByUrl insertByUrl
  by_cases hmem : m.any (fun t => decide (t.url = s.url)) = true
  · rw [if_pos hmem]
    by_cases hu : u = s.url
    · rw [if_pos hu, hu]
      exact find?_map_subst_eq s m hmem
    · rw [if_neg hu]
      exact find?_map_subst_ne s u hu m
  · rw [if_neg hmem, List.find?_append]
    by_cases hu : u = s.url
    · have hnone : m.find? (fun t => decide (t.url = u)) = none := by
        rw [List.find?_eq_none]
        intro t ht
        have hall : ∀ x ∈ m, x.url ≠ s.url := by
          have h0 := List.any_eq_false.mp (Bool.eq_false_iff.mpr hmem)
          simpa using h0
        simp only [decide_eq_true_eq, hu]
        exact hall t ht
      rw [if_pos hu, hnone]
      simp [hu]
    · rw [if_neg hu]
      have hS : ([s].find? (fun t => decide (t.url = u))) = none := by
        rw [List.find?_eq_none]
        intro t ht
        simp only [List.mem_singleton] at ht
        subst ht
        simp only [decide_eq_true_eq]
        exact fun h => hu h.symm
      rw [hS]
      cases m.find? (fun t => decide (t.url = u)) <;> rfl

theorem head?_filter_eq_find? (p : Source → Bool) (l : List Source) :
    (l.filter p).head? = l.find? p := by
  induction l with
  | nil => rfl
  | cons t l ih =>
    rw [List.filter_cons]
    cases ht : p t with
    | true =>
      rw [if_pos rfl, List.find?_cons, ht]
      rfl
    | false =>
      rw [if_neg Bool.false_ne_true, List.find?_cons, ht]
      exact ih

theorem lastWithUrl_eq_find?_reverse (l : List Source) (u : Str) :
    lastWithUrl l u = l.reverse.find? (fun t => decide (t.url = u)) := by
  unfold lastWithUrl
  rw [List.getLast?_eq_head?_reverse, ← List.filter_reverse,
    head?_filter_eq_find?]

theorem lastWithUrl_cons (s : Source) (l : List Source) (u : Str) :
    lastWithUrl (s :: l) u
      = (lastWithUrl l u).or (if s.url = u then some s else none) := by
  rw [lastWithUrl_eq_find?_reverse, lastWithUrl_eq_find?_reverse,
    List.reverse_cons, List.find?_append]
  congr 1
  by_cases h : s.url = u
  · rw [if_pos h]
    have h1 : decide (s.url = u) = true := by simp [h]
    rw [List.find?_cons, h1]
  · rw [if_neg h]
    have h1 : decide (s.url = u) = false := by simp [h]
    rw [List.find?_cons, h1, List.find?_nil]

theorem foldl_insertByUrl_spec (l : List Source) (m : List Source)
    (hm : (m.map Source.url).Nodup) :
    ((l.foldl insertByUrl m).map Source.url).Nodup
    ∧ ∀ u, findByUrl (l.foldl insertByUrl m) u
        = (lastWithUrl l u).or (findByUrl m u) := by
  induction l generalizing m with
  | nil =>
    refine ⟨hm, fun u => ?_⟩
    rfl
  | cons s l ih =>
    have h1 := insertByUrl_nodup m s hm
    obtain ⟨hnodup, hfind⟩ := ih (insertByUrl m s) h1
    refine ⟨by rw [List.foldl_cons]; exact hnodup, fun u => ?_⟩
    rw [List.foldl_cons, hfind u, findByUrl_insertByUrl, lastWithUrl_cons]
    cases hl : lastWithUrl l u with
    | some x => rfl
    | none =>
      by_cases hu : u = s.url
      · subst hu
        simp
      · rw [if_neg hu, if_neg (fun h => hu h.symm)]
        rfl

/-- Claim C1 (amended): merging fetched records into the run's source
accumulator yields at most one entry per URL, and the merged entry for a
URL is the *last* contributing record carrying that URL — a later record
overwrites an earlier one even when the later record is emptier in
content or summary.  An `undefined` update leaves the accumulator
unchanged. -/
theorem sourcesReducer_amended (existing update : List Source) :
    (((sourcesReducer existing (some update)).map Source.url).Nodup)
    ∧ (∀ u, findByUrl (sourcesReducer existing (some update)) u
        = lastWithUrl (existing ++ update) u)
    ∧ sourcesReducer existing none = existing := by
  have h := foldl_insertByUrl_spec (existing ++ update) [] (by simp)
  refine ⟨h.1, fun u => ?_, rfl⟩
  rw [show sourcesReducer existing (some update)
      = (existing ++ update).foldl insertByUrl [] from rfl, h.2 u]
  simp [findByUrl]

/-- Claim C1, counterexample: a later record with empty content and no
summary overwrites an earlier record for the same URL that carried both,
so the merged entry *is* emptier than a contributing record — refuting
"the richer record wins". -/
theorem sourcesReducer_counterexample :
    sourcesReducer [richSourceC1] (some [poorSourceC1]) = [poorSourceC1]
    ∧ richSourceC1.url = poorSourceC1.url
    ∧ richSourceC1.summary = some (str "a summary of the page")
    ∧ poorSourceC1.summary = none
    ∧ richSourceC1.content = some (str "long content")
    ∧ poorSourceC1.content = some [] := by
  refine ⟨by decide, by decide, by decide, by decide, by decide, by decide⟩

theorem updateSubQuery_mono (cfg : SearchConfig) (results : List CheckResult)
    (sq : SubQuery) :
    sq.confidence ≤ (updateSubQueryFromResults cfg results sq).confidence
    ∧ (updateSubQueryFromResults cfg results sq ≠ sq →
        sq.confidence < (updateSubQueryFromResults cfg results sq).confidence) := by
  unfold updateSubQueryFromResults
  cases h : results.find? (fun r => decide (r.question = sq.question)) with
  | none => exact ⟨le_refl _, fun hne => absurd rfl hne⟩
  | some r =>
    dsimp only
    by_cases hc : sq.confidence < r.confidence
    · rw [if_pos hc]
      exact ⟨le_of_lt hc, fun _ => hc⟩
    · rw [if_neg hc]
      exact ⟨le_refl _, fun hne => absurd rfl hne⟩

/-- Claim C4: across an answer-checking call, every stored sub-query
confidence is monotonically non-decreasing; a sub-query record changes
only when the newly reported confidence strictly exceeds the stored one;
and a JSON parse failure (or model failure) leaves all sub-queries
unchanged. -/
theorem checkAnswers_confidence_monotone (cfg : SearchConfig)
    (subQueries : List SubQuery) (sources : List Source)
    (response : Option (List CheckResult)) :
    List.Forall₂ (fun old new => old.confidence ≤ new.confidence
        ∧ (new ≠ old → old.confidence < new.confidence))
      subQueries (checkAnswersInSources cfg subQueries sources response).1
    ∧ (response = none →
        (checkAnswersInSources cfg subQueries sources response).1 = subQueries) := by
  have hrefl : List.Forall₂ (fun old new => old.confidence ≤ new.confidence
      ∧ (new ≠ old → old.confidence < new.confidence)) subQueries subQueries := by
    rw [List.forall₂_same]
    exact fun x _ => ⟨le_refl _, fun hne => absurd rfl hne⟩
  unfold checkAnswersInSources
  by_cases hs : sources.length = 0
  · rw [if_pos hs]
    exact ⟨hrefl, fun _ => rfl⟩
  · rw [if_neg hs]
    cases response with
    | none => exact ⟨hrefl, fun _ => rfl⟩
    | some results =>
      refine ⟨?_, fun hr => by simp at hr⟩
      rw [List.forall₂_map_right_iff, List.forall₂_same]
      intro sq _
      exact updateSubQuery_mono cfg results sq

/-- Witness for claim C4: at a concrete parse failure the theorem yields
that the sub-query list is returned unchanged. -/
theorem checkAnswers_confidence_monotone_witness :
    (checkAnswersInSources SEARCH_CONFIG [witSubQuery] [witSource] none).1
      = [witSubQuery] :=
  (checkAnswers_confidence_monotone SEARCH_CONFIG [witSubQuery] [witSource] none).2
    rfl

/-- Claim C10: invoking answer-checking with an empty source list returns
the sub-query list unchanged and performs no Language Model Gateway call
(the returned flag is `false`). -/
theorem checkAnswers_empty_sources_frame (cfg : SearchConfig)
    (subQueries : List SubQuery) (response : Option (List CheckResult)) :
    checkAnswersInSources cfg subQueries [] response = (subQueries, false) := rfl

/-- Claim C8 (amended): follow-up generation returns *at most* 3 questions
(the lines of the model response that are non-empty and under 75
characters after trimming, truncated to the first three), each of length
strictly between 0 and 75, and any model or formatting failure degrades
to the empty list and never propagates as a run error. -/
theorem generateFollowUpQuestions_amended (response : Except Unit Str) :
    (generateFollowUpQuestions response).length ≤ 3
    ∧ (∀ q ∈ generateFollowUpQuestions response, 0 < q.length ∧ q.length < 75)
    ∧ generateFollowUpQuestions (.error ()) = [] := by
  refine ⟨?_, ?_, rfl⟩
  · cases response with
    | error e => simp [generateFollowUpQuestions]
    | ok r =>
      simp only [generateFollowUpQuestions, processFollowUpLines]
      split
      · exact List.length_take_le _ _
      · simp
  · intro q hq
    cases response with
    | error e => simp [generateFollowUpQuestions] at hq
    | ok r =>
      simp only [generateFollowUpQuestions, processFollowUpLines] at hq
      split at hq
      · have hq2 := List.mem_of_mem_take hq
        have := (List.mem_filter.mp hq2).2
        simpa using this
      · simp at hq

/-- Witness for claim C8: a concrete well-formed line is a member of the
output and satisfies the length bounds. -/
theorem generateFollowUpQuestions_amended_witness :
    str "How?" ∈ generateFollowUpQuestions (.ok (str "How?"))
    ∧ 0 < (str "How?").length ∧ (str "How?").length < 75 := by
  refine ⟨by decide, ?_⟩
  exact (generateFollowUpQuestions_amended (.ok (str "How?"))).2.1
    (str "How?") (by decide)

/-- Claim C8, counterexample: a model response with a single short line
yields one follow-up question, not exactly 3. -/
theorem generateFollowUpQuestions_counterexample :
    generateFollowUpQuestions (.ok (str "Why?")) = [str "Why?"]
    ∧ (generateFollowUpQuestions (.ok (str "Why?"))).length ≠ 3 := by
  exact ⟨by decide, by decide⟩

/-- Claim C7 (amended): when at least min(8, total sources) sources carry a
summary longer than 20 characters, the context budgeter uses those
summaries directly as the working content with no model call attributable
to any source, and each emitted record's relevance is the existing
quality score when that score is nonzero, defaulting to 0.7 when the
quality is missing *or zero* (`source.quality || 0.7`). -/
theorem processSources_fast_path (oracle : ℕ → Except Unit Str) (c : ℕ)
    (query : Str) (sources : List Source) (searchQueries : List Str)
    (h : Nat.min sources.length 8
        ≤ (sources.filter (fun s => truthyStr s.summary
            && decide (20 < (s.summary.getD []).length))).length) :
    (processSources oracle c query sources searchQueries).2.2 = []
    ∧ (processSources oracle c query sources searchQueries).2.1 = c
    ∧ ∀ p ∈ (processSources oracle c query sources searchQueries).1,
        ∃ s ∈ sources, truthyStr s.summary = true
          ∧ 20 < (s.summary.getD []).length
          ∧ p.content = some (s.summary.getD [])
          ∧ p.summarized = some true
          ∧ p.relevanceScore = (match s.quality with
              | some q => if q = 0 then 7/10 else q
              | none => (7/10 : ℚ)) := by
  simp only [processSources]
  rw [if_pos h]
  refine ⟨rfl, rfl, ?_⟩
  intro p hp
  simp only [List.mem_mergeSort, List.mem_map] at hp
  obtain ⟨s, hs, rfl⟩ := hp
  obtain ⟨hsrc, hcond⟩ := List.mem_filter.mp hs
  simp only [Bool.and_eq_true, decide_eq_true_eq] at hcond
  exact ⟨s, hsrc, hcond.1, hcond.2, rfl, rfl, rfl⟩

/-- Witness for claim C7: a singleton source list carrying one usable
summary takes the fast path and is attributed no model call. -/
theorem processSources_fast_path_witness :
    Nat.min [srcC7].length 8
        ≤ ([srcC7].filter (fun s => truthyStr s.summary
            && decide (20 < (s.summary.getD []).length))).length
    ∧ (processSources (fun _ => .error ()) 0 [] [srcC7] []).2.2 = [] := by
  refine ⟨by decide, ?_⟩
  exact (processSources_fast_path (fun _ => .error ()) 0 [] [srcC7] []
    (by decide)).1

/-- Claim C7, counterexample: a fast-path source whose stored quality
score is exactly 0 is emitted with relevance 0.7, not its existing
quality score — `source.quality || 0.7` treats 0 as missing. -/
theorem processSources_counterexample :
    (processSources (fun _ => .error ()) 0 [] [srcC7] []).1.map
        (fun p => p.relevanceScore) = [7/10]
    ∧ srcC7.quality = some 0
    ∧ (7/10 : ℚ) ≠ 0 := by
  have hbool : (truthyStr srcC7.summary
      && decide (20 < (srcC7.summary.getD []).length)) = true := by decide
  have hfilter : [srcC7].filter (fun s => truthyStr s.summary
      && decide (20 < (s.summary.getD []).length)) = [srcC7] := by
    rw [List.filter_cons, if_pos hbool, List.filter_nil]
  refine ⟨?_, rfl, by norm_num⟩
  simp only [processSources, hfilter]
  rw [if_pos (by decide : Nat.min [srcC7].length 8 ≤ [srcC7].length)]
  simp only [List.map_cons, List.map_nil, List.mergeSort_singleton]
  rfl

theorem intercalate_single (sep a : Str) : List.intercalate sep [a] = a := by
  simp [List.intercalate]

theorem budgetLoop_nonpos (tr : ℚ) (srcs : List ProcessedSource) (rem : ℤ)
    (h : rem ≤ 0) : budgetLoop tr srcs rem = [] := by
  cases srcs with
  | nil => rfl
  | cons s rest =>
    simp only [budgetLoop]
    rw [if_pos h]

theorem budgetLoop_cons (tr : ℚ) (s : ProcessedSource)
    (rest : List ProcessedSource) (rem : ℤ) (h : ¬ rem ≤ 0) :
    budgetLoop tr (s :: rest) rem
      = { s with content := some (budgetContent s (budgetTarget tr s rem)) }
        :: budgetLoop tr rest
            (rem - (budgetContent s (budgetTarget tr s rem)).length) := by
  simp only [budgetLoop]
  rw [if_neg h]

theorem trunc_length_le (base : Str) (t : ℤ) :
    (if (base.length : ℤ) > t then base.take t.toNat ++ truncationMarker
     else base).length ≤ t.toNat + truncationMarker.length := by
  split
  · rw [List.length_append, List.length_take]
    omega
  · rename_i h
    push_neg at h
    omega

theorem budgetContent_length_le (s : ProcessedSource) (t : ℤ) :
    (budgetContent s t).length ≤ t.toNat + truncationMarker.length := by
  unfold budgetContent
  exact trunc_length_le _ t

theorem budgetTarget_le_ceiling (tr : ℚ) (s : ProcessedSource) (rem : ℤ) :
    budgetTarget tr s rem ≤ (MAX_CHARS_PER_SOURCE : ℤ) := by
  unfold budgetTarget
  rw [zMax_eq_max, zMin_eq_min, zMin_eq_min]
  generalize ⌊(s.relevanceScore / tr) * ((MAX_TOTAL_CHARS : ℕ) : ℚ)⌋ = A
  simp only [MIN_CHARS_PER_SOURCE, MAX_CHARS_PER_SOURCE]
  push_cast
  omega

theorem budgetTarget_le_floor_or_rem (tr : ℚ) (s : ProcessedSource)
    (rem : ℤ) : budgetTarget tr s rem ≤ max (MIN_CHARS_PER_SOURCE : ℤ) rem := by
  unfold budgetTarget
  rw [zMax_eq_max, zMin_eq_min, zMin_eq_min]
  generalize ⌊(s.relevanceScore / tr) * ((MAX_TOTAL_CHARS : ℕ) : ℚ)⌋ = A
  simp only [MIN_CHARS_PER_SOURCE, MAX_CHARS_PER_SOURCE]
  push_cast
  omega

theorem totalContentLength_cons (s : ProcessedSource)
    (l : List ProcessedSource) :
    totalContentLength (s :: l)
      = (s.content.getD []).length + totalContentLength l := by
  simp [totalContentLength]

theorem budgetLoop_mem (tr : ℚ) (srcs : List ProcessedSource) :
    ∀ (rem : ℤ), ∀ p ∈ budgetLoop tr srcs rem, ∃ s ∈ srcs,
      p.relevanceScore = s.relevanceScore
      ∧ (p.content.getD []).length
          ≤ MAX_CHARS_PER_SOURCE + truncationMarker.length := by
  induction srcs with
  | nil =>
    intro rem p hp
    simp [budgetLoop] at hp
  | cons s rest ih =>
    intro rem p hp
    by_cases hrem : rem ≤ 0
    · rw [budgetLoop_nonpos tr _ rem hrem] at hp
      simp at hp
    · rw [budgetLoop_cons tr s rest rem hrem] at hp
      rcases List.mem_cons.mp hp with heq | htail
      · refine ⟨s, List.mem_cons_self s rest, ?_, ?_⟩
        · rw [heq]
        · rw [heq]
          have hb := budgetContent_length_le s (budgetTarget tr s rem)
          have ht := budgetTarget_le_ceiling tr s rem
          simp only [Option.getD_some]
          simp only [MAX_CHARS_PER_SOURCE] at ht ⊢
          omega
      · obtain ⟨s', hs', hh⟩ := ih _ p htail
        exact ⟨s', List.mem_cons_of_mem s hs', hh⟩

theorem budgetLoop_total_le (tr : ℚ) (srcs : List ProcessedSource) :
    ∀ (rem : ℤ), 0 < rem →
      (totalContentLength (budgetLoop tr srcs rem) : ℤ)
        ≤ rem + ((MIN_CHARS_PER_SOURCE : ℤ) + truncationMarker.length - 1) := by
  induction srcs with
  | nil =>
    intro rem hrem
    simp only [budgetLoop, totalContentLength, List.map_nil, List.sum_nil]
    simp only [MIN_CHARS_PER_SOURCE]
    push_cast
    omega
  | cons s rest ih =>
    intro rem hrem
    rw [budgetLoop_cons tr s rest rem (by omega)]
    rw [totalContentLength_cons]
    simp only [Option.getD_some]
    have hb := budgetContent_length_le s (budgetTarget tr s rem)
    have ht := budgetTarget_le_floor_or_rem tr s rem
    by_cases hnext :
        0 < rem - ((budgetContent s (budgetTarget tr s rem)).length : ℤ)
    · have := ih (rem - (budgetContent s (budgetTarget tr s rem)).length) hnext
      simp only [MIN_CHARS_PER_SOURCE] at *
      push_cast at *
      omega
    · rw [budgetLoop_nonpos tr rest _ (by omega)]
      simp only [totalContentLength, List.map_nil, List.sum_nil]
      simp only [MIN_CHARS_PER_SOURCE] at *
      push_cast at *
      omega

/-- Claim C9 (amended): in the context budgeter's distribution of the
100,000-character budget, zero-relevance sources are excluded from the
proportional pool (every emitted source has positive relevance); when no
source is relevant, at most 5 fallback sources are emitted, each
truncated to the 15,000-character ceiling; every emitted source's content
is bounded by the ceiling plus the 24-character truncation marker; and
the total allocated content is bounded by the budget plus the floor and
marker overshoot (at most 102,023 characters) — but it does *not* always
stay within the 100,000-character budget itself. -/
theorem distributeCharacterBudget_amended (sources : List ProcessedSource) :
    ((sources.filter (fun s => decide (0 < s.relevanceScore))).isEmpty = true →
      (distributeCharacterBudget sources).length ≤ 5
      ∧ ∀ p ∈ distributeCharacterBudget sources,
          (p.content.getD []).length ≤ MAX_CHARS_PER_SOURCE)
    ∧ ((sources.filter (fun s => decide (0 < s.relevanceScore))).isEmpty = false →
      (∀ p ∈ distributeCharacterBudget sources, 0 < p.relevanceScore
        ∧ (p.content.getD []).length
            ≤ MAX_CHARS_PER_SOURCE + truncationMarker.length)
      ∧ (totalContentLength (distributeCharacterBudget sources) : ℤ)
          ≤ (MAX_TOTAL_CHARS : ℤ) + (MIN_CHARS_PER_SOURCE : ℤ)
            + truncationMarker.length - 1) := by
  constructor
  · intro hempty
    simp only [distributeCharacterBudget, hempty, if_true]
    constructor
    · rw [List.length_map]
      exact le_trans (List.length_take_le _ _) (le_refl _)
    · intro p hp
      simp only [List.mem_map] at hp
      obtain ⟨q, _, rfl⟩ := hp
      simp only [Option.getD_some]
      exact List.length_take_le _ _
  · intro hempty
    simp only [distributeCharacterBudget, hempty, Bool.false_eq_true, if_false]
    constructor
    · intro p hp
      obtain ⟨s, hs, hrel, hlen⟩ := budgetLoop_mem _ _ _ p hp
      obtain ⟨_, hcond⟩ := List.mem_filter.mp hs
      simp only [decide_eq_true_eq] at hcond
      exact ⟨hrel ▸ hcond, hlen⟩
    · have h := budgetLoop_total_le
        ((sources.filter (fun s => decide (0 < s.relevanceScore))).foldl
          (fun acc s => acc + s.relevanceScore) 0)
        (sources.filter (fun s => decide (0 < s.relevanceScore)))
        ((MAX_TOTAL_CHARS : ℕ) : ℤ)
        (by norm_num [MAX_TOTAL_CHARS])
      push_cast at h ⊢
      omega

/-- Witness for claim C9: at a concrete single-source input the theorem's
non-fallback branch applies and bounds the total allocation. -/
theorem distributeCharacterBudget_amended_witness :
    (totalContentLength (distributeCharacterBudget [srcB]) : ℤ) ≤ 102023 := by
  have hfalse : ([srcB].filter
      (fun s => decide (0 < s.relevanceScore))).isEmpty = false := by
    have hb : decide (0 < srcB.relevanceScore) = true := by
      simp only [decide_eq_true_eq]
      norm_num [show srcB.relevanceScore = 1/10 from rfl]
    rw [List.filter_cons, if_pos hb]
    rfl
  have h := (distributeCharacterBudget_amended [srcB]).2 hfalse
  refine le_trans h.2 ?_
  have hm : truncationMarker.length = 24 := by decide
  norm_num [MAX_TOTAL_CHARS, MIN_CHARS_PER_SOURCE, hm]

theorem srcA_step (rest : List ProcessedSource) (rem : ℤ)
    (h15 : 15000 ≤ rem) :
    budgetLoop 1 (srcA :: rest) rem
      = srcA :: budgetLoop 1 rest (rem - 15000) := by
  rw [budgetLoop_cons 1 srcA rest rem (by omega)]
  have htarget : budgetTarget 1 srcA rem = 15000 := by
    unfold budgetTarget
    have hfloor : ⌊(srcA.relevanceScore / 1) * ((MAX_TOTAL_CHARS : ℕ) : ℚ)⌋
        = 15000 := by
      have he : (srcA.relevanceScore / 1) * ((MAX_TOTAL_CHARS : ℕ) : ℚ)
          = ((15000 : ℤ) : ℚ) := by
        norm_num [show srcA.relevanceScore = 3/20 from rfl, MAX_TOTAL_CHARS]
      rw [he, Int.floor_intCast]
    rw [hfloor, zMax_eq_max, zMin_eq_min, zMin_eq_min]
    simp only [MIN_CHARS_PER_SOURCE, MAX_CHARS_PER_SOURCE]
    push_cast
    omega
  have hbiglen : bigContent.length = 15000 := by
    simp only [bigContent, List.length_replicate]
  have hcontent : budgetContent srcA 15000 = bigContent := by
    unfold budgetContent
    rw [show srcA.extractedSections = [bigContent] from rfl]
    rw [show ([bigContent].isEmpty : Bool) = false from rfl]
    simp only [Bool.not_false, if_true, intercalate_single]
    rw [show (decide ((bigContent.length : ℤ) < 15000)) = false from by
      simp only [hbiglen]; norm_num]
    simp only [Bool.false_and, Bool.false_eq_true, if_false]
    rw [if_neg (by simp only [hbiglen]; norm_num)]
  rw [htarget, hcontent]
  rw [show ({ srcA with content := some bigContent } : ProcessedSource)
    = srcA from rfl]
  rw [show ((bigContent.length : ℕ) : ℤ) = 15000 from by rw [hbiglen]; norm_num]

theorem srcB_step (rem : ℤ) (h : rem = 10000) :
    budgetLoop 1 [srcB] rem = [srcBOut] := by
  subst h
  rw [budgetLoop_cons 1 srcB [] 10000 (by omega)]
  have htarget : budgetTarget 1 srcB 10000 = 10000 := by
    unfold budgetTarget
    have hfloor : ⌊(srcB.relevanceScore / 1) * ((MAX_TOTAL_CHARS : ℕ) : ℚ)⌋
        = 10000 := by
      have he : (srcB.relevanceScore / 1) * ((MAX_TOTAL_CHARS : ℕ) : ℚ)
          = ((10000 : ℤ) : ℚ) := by
        norm_num [show srcB.relevanceScore = 1/10 from rfl, MAX_TOTAL_CHARS]
      rw [he, Int.floor_intCast]
    rw [hfloor, zMax_eq_max, zMin_eq_min, zMin_eq_min]
    simp only [MIN_CHARS_PER_SOURCE, MAX_CHARS_PER_SOURCE]
    push_cast
    omega
  have hbiglen : bigContent.length = 15000 := by
    simp only [bigContent, List.length_replicate]
  have hcontent : budgetContent srcB 10000
      = bigContent.take 10000 ++ truncationMarker := by
    unfold budgetContent
    rw [show srcB.extractedSections = [bigContent] from rfl]
    rw [show ([bigContent].isEmpty : Bool) = false from rfl]
    simp only [Bool.not_false, if_true, intercalate_single]
    rw [show (decide ((bigContent.length : ℤ) < 10000)) = false from by
      simp only [hbiglen]; norm_num]
    simp only [Bool.false_and, Bool.false_eq_true, if_false]
    rw [if_pos (by simp only [hbiglen]; norm_num)]
    rfl
  rw [htarget, hcontent]
  rw [budgetLoop_nonpos 1 [] _ (by
    rw [List.length_append, List.length_take, hbiglen]
    rw [show truncationMarker.length = 24 from by decide]
    push_cast
    omega)]
  rfl

theorem budgetLoop_counter_eval :
    budgetLoop 1 budgetCounterSources 100000
      = [srcA, srcA, srcA, srcA, srcA, srcA, srcBOut] := by
  show budgetLoop 1 [srcA, srcA, srcA, srcA, srcA, srcA, srcB] 100000 = _
  rw [srcA_step [srcA, srcA, srcA, srcA, srcA, srcB] 100000 (by norm_num)]
  rw [show (100000 : ℤ) - 15000 = 85000 from by norm_num]
  rw [srcA_step [srcA, srcA, srcA, srcA, srcB] 85000 (by norm_num)]
  rw [show (85000 : ℤ) - 15000 = 70000 from by norm_num]
  rw [srcA_step [srcA, srcA, srcA, srcB] 70000 (by norm_num)]
  rw [show (70000 : ℤ) - 15000 = 55000 from by norm_num]
  rw [srcA_step [srcA, srcA, srcB] 55000 (by norm_num)]
  rw [show (55000 : ℤ) - 15000 = 40000 from by norm_num]
  rw [srcA_step [srcA, srcB] 40000 (by norm_num)]
  rw [show (40000 : ℤ) - 15000 = 25000 from by norm_num]
  rw [srcA_step [srcB] 25000 (by norm_num)]
  rw [show (25000 : ℤ) - 15000 = 10000 from by norm_num]
  rw [srcB_step 10000 rfl]

/-- Claim C9, counterexample: with six sources of relevance 0.15 and one
of relevance 0.1 (total relevance 1), each backed by a 15,000-character
extracted section, the distributed total is 100,024 characters — the
truncation marker pushes the allocation past the 100,000-character
budget, refuting "the total allocated content stays within the budget". -/
theorem distributeCharacterBudget_counterexample :
    totalContentLength (distributeCharacterBudget budgetCounterSources)
      = 100024
    ∧ MAX_TOTAL_CHARS = 100000
    ∧ 100000
      < totalContentLength (distributeCharacterBudget budgetCounterSources) := by
  have hone : decide ((0 : ℚ) < srcA.relevanceScore) = true := by
    simp only [decide_eq_true_eq]
    norm_num [show srcA.relevanceScore = 3/20 from rfl]
  have htwo : decide ((0 : ℚ) < srcB.relevanceScore) = true := by
    simp only [decide_eq_true_eq]
    norm_num [show srcB.relevanceScore = 1/10 from rfl]
  have hfilter : budgetCounterSources.filter
      (fun s => decide (0 < s.relevanceScore)) = budgetCounterSources := by
    rw [List.filter_eq_self]
    intro a ha
    simp only [budgetCounterSources, List.mem_cons, List.not_mem_nil,
      or_false] at ha
    rcases ha with rfl | rfl | rfl | rfl | rfl | rfl | rfl
    · exact hone
    · exact hone
    · exact hone
    · exact hone
    · exact hone
    · exact hone
    · exact htwo
  have htot : budgetCounterSources.foldl
      (fun acc s => acc + s.relevanceScore) 0 = 1 := by
    simp only [budgetCounterSources, List.foldl_cons, List.foldl_nil]
    norm_num [show srcA.relevanceScore = 3/20 from rfl,
      show srcB.relevanceScore = 1/10 from rfl]
  have hmain : distributeCharacterBudget budgetCounterSources
      = [srcA, srcA, srcA, srcA, srcA, srcA, srcBOut] := by
    simp only [distributeCharacterBudget, hfilter]
    rw [show (budgetCounterSources.isEmpty : Bool) = false from rfl]
    simp only [Bool.false_eq_true, if_false]
    rw [htot]
    rw [show ((MAX_TOTAL_CHARS : ℕ) : ℤ) = 100000 from by
      norm_num [MAX_TOTAL_CHARS]]
    exact budgetLoop_counter_eval
  rw [hmain]
  have hbiglen : bigContent.length = 15000 := by
    simp only [bigContent, List.length_replicate]
  have hA : ((srcA.content.getD []).length) = 15000 := by
    rw [show srcA.content = some bigContent from rfl, Option.getD_some, hbiglen]
  have hB : ((srcBOut.content.getD []).length) = 10024 := by
    rw [show srcBOut.content
      = some (bigContent.take 10000 ++ truncationMarker) from rfl]
    rw [Option.getD_some, List.length_append, List.length_take, hbiglen]
    rw [show truncationMarker.length = 24 from by decide]
    norm_num
  refine ⟨?_, rfl, ?_⟩
  · simp only [totalContentLength, List.map_cons, List.map_nil, List.sum_cons,
      List.sum_nil, hA, hB]
    norm_num
  · simp only [totalContentLength, List.map_cons, List.map_nil, List.sum_cons,
      List.sum_nil, hA, hB]
    norm_num

/-! ### The graph's terminal-event guarantee (C2) and error handling
(C5, C6) -/

/-- Unfolding of one super-step of the graph. -/
theorem runGraph_succ (cfg : SearchConfig) (env : EngineEnv) (fuel c : ℕ)
    (node : NodeId) (s : SearchState) :
    runGraph cfg env (fuel + 1) c node s =
      match (runNode cfg env node c s).threw with
      | some msg => ((runNode cfg env node c s).events, .threw msg)
      | none =>
        match nextNode node (applyUpdate s (runNode cfg env node c s).update)
        with
        | none => ((runNode cfg env node c s).events,
            .finished (applyUpdate s (runNode cfg env node c s).update))
        | some n2 =>
          ((runNode cfg env node c s).events
            ++ (runGraph cfg env fuel (runNode cfg env node c s).counter n2
                (applyUpdate s (runNode cfg env node c s).update)).1,
           (runGraph cfg env fuel (runNode cfg env node c s).counter n2
             (applyUpdate s (runNode cfg env node c s).update)).2) := rfl

/-- Appending on the left preserves the final-pair trace shape. -/
theorem endsWithFinalPair_append (a b : List SearchEvent)
    (h : endsWithFinalPair b) : endsWithFinalPair (a ++ b) := by
  obtain ⟨pre, msg, ct, ss, fu, hb⟩ := h
  exact ⟨a ++ pre, msg, ct, ss, fu, by rw [hb, List.append_assoc]⟩

/-- Appending on the left preserves the trailing-error trace shape. -/
theorem endsWithErrorEvent_append (a b : List SearchEvent)
    (h : endsWithErrorEvent b) : endsWithErrorEvent (a ++ b) := by
  obtain ⟨pre, msg, et, hb⟩ := h
  exact ⟨a ++ pre, msg, et, by rw [hb, List.append_assoc]⟩

/-- A final-pair trace is non-empty. -/
theorem endsWithFinalPair_ne_nil (evs : List SearchEvent)
    (h : endsWithFinalPair evs) : evs ≠ [] := by
  obtain ⟨pre, msg, ct, ss, fu, hb⟩ := h
  rw [hb]; simp

/-- A trailing-error trace is non-empty. -/
theorem endsWithErrorEvent_ne_nil (evs : List SearchEvent)
    (h : endsWithErrorEvent evs) : evs ≠ [] := by
  obtain ⟨pre, msg, et, hb⟩ := h
  rw [hb]; simp

/-- The two terminal trace shapes are mutually exclusive: the last event
is a final-result event in one and an error event in the other. -/
theorem terminal_shapes_not_both (evs : List SearchEvent) :
    ¬(endsWithFinalPair evs ∧ endsWithErrorEvent evs) := by
  rintro ⟨⟨p1, m1, c1, s1, f1, h1⟩, ⟨p2, m2, e2, h2⟩⟩
  have g1 : evs.getLast? = some (SearchEvent.finalResult c1 s1 f1) := by
    rw [h1, show [SearchEvent.phaseUpdate .complete m1,
          SearchEvent.finalResult c1 s1 f1]
        = [SearchEvent.phaseUpdate .complete m1]
          ++ [SearchEvent.finalResult c1 s1 f1] from rfl,
      ← List.append_assoc]
    exact List.getLast?_concat _
  have g2 : evs.getLast? = some (SearchEvent.errorEvent m2 e2) := by
    rw [h2]
    exact List.getLast?_concat _
  rw [g1] at g2
  simp at g2

/-- The error-handling node always emits exactly one error event. -/
theorem handleErrorNode_events (cfg : SearchConfig) (c : ℕ)
    (s : SearchState) :
    (handleErrorNode cfg c s).events
      = [SearchEvent.errorEvent
          (match s.error with
            | some e => if e.isEmpty then str "An unknown error occurred"
                else e
            | none => str "An unknown error occurred") s.errorType] := by
  simp only [handleErrorNode]
  split <;> split <;> rfl

/-- Whenever the graph runs to `END`, the emitted trace ends with the
complete/final-result pair or with an error event: `END` is reachable
only from the `complete` node (which emits the pair last) or from the
exhausted `handleError` node (which emits the error event last). -/
theorem runGraph_finished_terminal (cfg : SearchConfig) (env : EngineEnv) :
    ∀ (fuel c : ℕ) (node : NodeId) (s : SearchState),
      (∃ sf, (runGraph cfg env fuel c node s).2 = RunOutcome.finished sf) →
      endsWithFinalPair (runGraph cfg env fuel c node s).1
      ∨ endsWithErrorEvent (runGraph cfg env fuel c node s).1 := by
  intro fuel
  induction fuel with
  | zero =>
    intro c node s h
    obtain ⟨sf, hsf⟩ := h
    simp [runGraph] at hsf
  | succ fuel ih =>
    intro c node s h
    obtain ⟨sf, hsf⟩ := h
    rw [runGraph_succ] at hsf ⊢
    cases hthrew : (runNode cfg env node c s).threw with
    | some m =>
      rw [hthrew] at hsf
      simp at hsf
    | none =>
      rw [hthrew] at hsf
      dsimp only at hsf ⊢
      cases hnext : nextNode node
          (applyUpdate s (runNode cfg env node c s).update) with
      | none =>
        rw [hnext] at hsf
        dsimp only at hsf ⊢
        cases node with
        | complete => exact Or.inl ⟨[], _, _, _, _, rfl⟩
        | handleError =>
          refine Or.inr ⟨[],
            (match s.error with
              | some e => if e.isEmpty then str "An unknown error occurred"
                  else e
              | none => str "An unknown error occurred"),
            s.errorType, ?_⟩
          show (handleErrorNode cfg c s).events = _
          rw [handleErrorNode_events]
          rfl
        | understand => simp [nextNode] at hnext
        | plan => simp [nextNode] at hnext
        | search =>
          simp only [nextNode] at hnext
          exact absurd hnext (by simp)
        | scrape => simp [nextNode] at hnext
        | analyze =>
          simp only [nextNode] at hnext
          exact absurd hnext (by simp)
        | synthesize => simp [nextNode] at hnext
      | some n2 =>
        rw [hnext] at hsf
        dsimp only at hsf ⊢
        have hrec := ih (runNode cfg env node c s).counter n2
          (applyUpdate s (runNode cfg env node c s).update) ⟨sf, hsf⟩
        rcases hrec with hf | he
        · exact Or.inl (endsWithFinalPair_append _ _ hf)
        · exact Or.inr (endsWithErrorEvent_append _ _ he)

/-- Unfolding of the `search()` entry point. -/
theorem engineSearch_eq (cfg : SearchConfig) (env : EngineEnv) (query : Str)
    (context : Option (List (Str × Str))) :
    engineSearch cfg env query context =
      match runGraph cfg env 35 0 .understand
          (initialState cfg query context) with
      | (evs, .finished sf) => (evs, some sf)
      | (evs, .threw msg) =>
        (evs ++ [.errorEvent msg (some .unknown)], none) := rfl

/-- Claim C2: every invocation of the engine's `search` entry point
delivers a non-empty event trace that ends either with a
`phase-update(complete)` event immediately followed by a `final-result`
event, or with a single trailing `error` event — never silence, and
never both terminal forms at once. -/
theorem engineSearch_terminal_events (cfg : SearchConfig) (env : EngineEnv)
    (query : Str) (context : Option (List (Str × Str))) :
    (engineSearch cfg env query context).1 ≠ []
    ∧ (endsWithFinalPair (engineSearch cfg env query context).1
        ∨ endsWithErrorEvent (engineSearch cfg env query context).1)
    ∧ ¬(endsWithFinalPair (engineSearch cfg env query context).1
        ∧ endsWithErrorEvent (engineSearch cfg env query context).1) := by
  have key : endsWithFinalPair (engineSearch cfg env query context).1
      ∨ endsWithErrorEvent (engineSearch cfg env query context).1 := by
    rw [engineSearch_eq]
    cases hrun : runGraph cfg env 35 0 .understand
        (initialState cfg query context) with
    | mk evs outcome =>
      cases outcome with
      | finished sf =>
        have h35 := runGraph_finished_terminal cfg env 35 0 .understand
          (initialState cfg query context) ⟨sf, by rw [hrun]⟩
        rw [hrun] at h35
        exact h35
      | threw m =>
        exact Or.inr ⟨evs, m, some .unknown, rfl⟩
  refine ⟨?_, key, terminal_shapes_not_both _⟩
  rcases key with h | h
  · exact endsWithFinalPair_ne_nil _ h
  · exact endsWithErrorEvent_ne_nil _ h

/-- Closed instance of the C2 terminal-event guarantee on the
zero-results environment. -/
theorem engineSearch_terminal_events_witness :
    (engineSearch SEARCH_CONFIG benignEnv (str "q") none).1 ≠ []
    ∧ (endsWithFinalPair (engineSearch SEARCH_CONFIG benignEnv (str "q") none).1
        ∨ endsWithErrorEvent
            (engineSearch SEARCH_CONFIG benignEnv (str "q") none).1)
    ∧ ¬(endsWithFinalPair (engineSearch SEARCH_CONFIG benignEnv (str "q") none).1
        ∧ endsWithErrorEvent
            (engineSearch SEARCH_CONFIG benignEnv (str "q") none).1) :=
  engineSearch_terminal_events SEARCH_CONFIG benignEnv (str "q") none

/-- Claim C5 (code bug): at a state in `handleError` carrying a
search-class error with a retry available, the node emits the error
event, increments the retry counter, and sets the phase to `searching` —
but its `error: undefined, errorType: undefined` update is swallowed by
the `(x, y) => y ?? x` channel reducers, so the merged state still
carries the error fields (they are *not* cleared), and the conditional
edge out of `handleError` routes every retry to `understand`: routing
back to the `search` node is impossible for any state. -/
theorem handleError_retry_divergence :
    (handleErrorNode SEARCH_CONFIG 0 c5State).events
      = [SearchEvent.errorEvent (str "fetch failed") (some ErrorType.search)]
    ∧ (handleErrorNode SEARCH_CONFIG 0 c5State).update.retryCount = some 1
    ∧ (handleErrorNode SEARCH_CONFIG 0 c5State).update.phase
        = some SearchPhase.searching
    ∧ (handleErrorNode SEARCH_CONFIG 0 c5State).update.error = none
    ∧ (handleErrorNode SEARCH_CONFIG 0 c5State).update.errorType = none
    ∧ (applyUpdate c5State
        (handleErrorNode SEARCH_CONFIG 0 c5State).update).error
        = some (str "fetch failed")
    ∧ (applyUpdate c5State
        (handleErrorNode SEARCH_CONFIG 0 c5State).update).errorType
        = some ErrorType.search
    ∧ nextNode .handleError
        (applyUpdate c5State (handleErrorNode SEARCH_CONFIG 0 c5State).update)
        = some NodeId.understand
    ∧ (∀ s2 : SearchState, nextNode .handleError s2 ≠ some NodeId.search) := by
  refine ⟨rfl, rfl, rfl, rfl, rfl, rfl, rfl, rfl, ?_⟩
  intro s2
  by_cases h : s2.phase = SearchPhase.error <;>
    simp [nextNode, h]

/-- Closed instance of the routing conjunct of C5 at the failing input. -/
theorem handleError_retry_divergence_witness :
    nextNode .handleError c5State ≠ some NodeId.search :=
  handleError_retry_divergence.2.2.2.2.2.2.2.2 c5State

/-- Claim C6: the search node processes exactly one query per invocation
(advancing `currentSearchIndex` by one while leaving the phase alone, and
recording `errorType: 'search'` without throwing when the fetch fails),
the conditional edge self-loops until the index reaches the query count
and then moves to scraping, and a whole run whose only query fails — or
returns zero results — still ends with the complete/final-result pair. -/
theorem searching_self_loop_and_fetch_tolerance :
    (∀ (cfg : SearchConfig) (env : EngineEnv) (c : ℕ) (s : SearchState),
      s.currentSearchIndex < (s.searchQueries.getD []).length →
        (searchNode cfg env c s).update.currentSearchIndex
          = some (s.currentSearchIndex + 1)
        ∧ (searchNode cfg env c s).update.phase = none
        ∧ (searchNode cfg env c s).threw = none
        ∧ (env.firecrawlSearch c
              ((s.searchQueries.getD []).getD s.currentSearchIndex [])
              = Except.error () →
            (searchNode cfg env c s).update.errorType
              = some ErrorType.search))
    ∧ (∀ s2 : SearchState, s2.phase ≠ SearchPhase.error →
        nextNode NodeId.search s2
          = some (if s2.currentSearchIndex
                < (s2.searchQueries.getD []).length
              then NodeId.search else NodeId.scrape))
    ∧ (∃ pre, (engineSearch SEARCH_CONFIG failEnv (str "q") none).1
        = pre ++ [SearchEvent.phaseUpdate SearchPhase.complete
            (str "Search complete!"),
          SearchEvent.finalResult (str "ans") [] (some [])])
    ∧ (∃ sf, (engineSearch SEARCH_CONFIG failEnv (str "q") none).2 = some sf
        ∧ sf.phase = SearchPhase.complete
        ∧ sf.errorType = some ErrorType.search)
    ∧ (∃ pre, (engineSearch SEARCH_CONFIG benignEnv (str "q") none).1
        = pre ++ [SearchEvent.phaseUpdate SearchPhase.complete
            (str "Search complete!"),
          SearchEvent.finalResult (str "ans") [] (some [])]) := by
  refine ⟨?_, ?_, ?_, ?_, ?_⟩
  · intro cfg env c s h
    have hlt : ¬((s.searchQueries.getD []).length ≤ s.currentSearchIndex) :=
      Nat.not_le.mpr h
    cases hfs : env.firecrawlSearch c
        ((s.searchQueries.getD []).getD s.currentSearchIndex []) with
    | error u =>
      refine ⟨?_, ?_, ?_, fun _ => ?_⟩ <;>
        · simp only [searchNode]
          rw [if_neg hlt, hfs]
    | ok results =>
      refine ⟨?_, ?_, ?_, fun hcontra => Except.noConfusion hcontra⟩ <;>
        · simp only [searchNode]
          rw [if_neg hlt, hfs]
  · intro s2 h
    simp only [nextNode]
    rw [if_neg h]
  · exact ⟨[SearchEvent.phaseUpdate .understanding
        (str "Analyzing your request..."),
      SearchEvent.thinking (str "u"),
      SearchEvent.phaseUpdate .planning (str "Planning search strategy..."),
      SearchEvent.thinking
        (str "Quick search strategy: using direct query approach for speed"),
      SearchEvent.phaseUpdate .searching (str "Searching the web..."),
      SearchEvent.searching (str "q") 1 1,
      SearchEvent.phaseUpdate .analyzing
        (str "Analyzing gathered information..."),
      SearchEvent.phaseUpdate .synthesizing
        (str "Creating comprehensive answer..."),
      SearchEvent.contentChunk (str "ans")], rfl⟩
  · exact ⟨_, rfl, rfl, rfl⟩
  · exact ⟨[SearchEvent.phaseUpdate .understanding
        (str "Analyzing your request..."),
      SearchEvent.thinking (str "u"),
      SearchEvent.phaseUpdate .planning (str "Planning search strategy..."),
      SearchEvent.thinking
        (str "Quick search strategy: using direct query approach for speed"),
      SearchEvent.phaseUpdate .searching (str "Searching the web..."),
      SearchEvent.searching (str "q") 1 1,
      SearchEvent.found [] (str "q"),
      SearchEvent.phaseUpdate .analyzing
        (str "Analyzing gathered information..."),
      SearchEvent.phaseUpdate .synthesizing
        (str "Creating comprehensive answer..."),
      SearchEvent.contentChunk (str "ans")], rfl⟩

/-- Closed instance of the C6 search-node properties at a concrete
searching-phase state whose single fetch call fails. -/
theorem searching_self_loop_and_fetch_tolerance_witness :
    c6WitState.currentSearchIndex < (c6WitState.searchQueries.getD []).length
    ∧ (searchNode SEARCH_CONFIG failEnv 0 c6WitState).update.currentSearchIndex
        = some 1
    ∧ (searchNode SEARCH_CONFIG failEnv 0 c6WitState).update.errorType
        = some ErrorType.search
    ∧ nextNode NodeId.search c6WitState = some NodeId.search :=
  have h := searching_self_loop_and_fetch_tolerance
  have h1 := h.1 SEARCH_CONFIG failEnv 0 c6WitState (by decide)
  have h2 := h.2.1 c6WitState (by decide)
  ⟨by decide, by rw [h1.1]; rfl, h1.2.2.2 rfl, by rw [h2]; rfl⟩

end SwarmSync
